import Mathlib

/-
  Verification development for the Mycodo output controller
  (mycodo/controller_output.py).

  The controller state is embedded shallowly: the per-output dictionaries of
  `OutputController.__init__` become total functions over output ids, GPIO pin
  levels become a function over pin numbers, and wall-clock readings
  (`datetime.datetime.now()` / `time.time()`) become an explicit rational
  parameter `now`.  Floats are modelled as rationals.  Database lookups that
  `output_on_off` performs (`Misc.max_amps`, SMTP settings, conditionals and
  their actions) are modelled as a read-only `Config`.  Side effects
  (GPIO writes, wireless transmissions, shell commands, influxdb samples,
  emails, LCD flashes) are collected in an event trace.
-/

namespace Mycodo

/-- Kind of a controllable output.  Source strings: `'wired'`, `'command'`,
`'wireless_433MHz_pi_switch'`, `'pwm'`. -/
inductive OutKind where
  | wired
  | command
  | wireless
  | pwm
deriving DecidableEq, Repr

/-- PWM backend library (`pwm_library` column): `'pigpio_hardware'`,
`'pigpio_any'`, or anything else. -/
inductive PwmLib where
  | pigpio_hardware
  | pigpio_any
  | other
deriving DecidableEq, Repr

/-- Requested switch state, the `state` string argument of `output_on_off`
(`'on'` or `'off'`). -/
inductive SwState where
  | on
  | off
deriving DecidableEq, Repr

/-- Watched state of a conditional rule (`if_relay_state` column:
`'on'`, `'on_any'`, `'off'`). -/
inductive RuleState where
  | on
  | on_any
  | off
deriving DecidableEq, Repr

/-- Kind of a conditional action (`do_action` column). -/
inductive ActKind where
  | relay
  | command
  | email
  | flash_lcd
  | photo
  | video
deriving DecidableEq, Repr

/-- Static configuration of one output (the per-output values loaded in
`all_outputs_initialize`). -/
structure OutConf where
  otype : OutKind
  pin : Option Int
  trigger : Bool
  amps : ℚ
  pwm_hertz : Int
  pwm_library : PwmLib
  on_command : Option String
  off_command : Option String
  unique_id : Nat
deriving DecidableEq, Repr

/-- Static part of the controller: the registry of output ids (`output_id`
dict keys), their configuration, and whether a pigpio handle exists for an
output (`output_id in self.pwm_output`). -/
structure Static where
  outputs : List Nat
  conf : Nat → OutConf
  pwm_has : Nat → Bool

/-- Mutable runtime state: the runtime dictionaries of `OutputController`
plus GPIO pin levels and email-throttle counters. -/
structure Runtime where
  on_until : Nat → ℚ
  last_duration : Nat → ℚ
  on_duration : Nat → Bool
  time_turned_on : Nat → Option ℚ
  pwm_time_turned_on : Nat → Option ℚ
  pwm_state : Nat → Option ℚ
  gpio : Int → Bool
  email_count : Nat
  smtp_wait_time : ℚ
  allowed_to_send : Bool

/-- Whole controller state. -/
structure Controller where
  static : Static
  rt : Runtime

/-- A conditional rule row (`Conditional` table columns used by
`check_conditionals`). -/
structure Cond where
  cid : Nat
  if_relay_id : Nat
  is_activated : Bool
  if_relay_state : RuleState
  if_relay_duration : ℚ
deriving DecidableEq, Repr

/-- A conditional action row (`ConditionalActions` table columns used by
`check_conditionals`). -/
structure CondAction where
  aid : Nat
  conditional_id : Nat
  do_action : ActKind
  do_relay_id : Nat
  do_relay_state : SwState
  do_relay_duration : ℚ
  do_action_string : String
  do_lcd_id : Nat
deriving DecidableEq, Repr

/-- Read-only configuration the controller fetches from the database:
`Misc.max_amps`, `SMTP.hourly_max`, and the conditional rules/actions. -/
structure Config where
  max_amps : ℚ
  smtp_max_count : Nat
  conditionals : List Cond
  cond_actions : List CondAction

/-- Observable side effects of a call. -/
inductive Event where
  | gpio_write (pin : Int) (level : Bool)
  | transmit (code : String)
  | cmd_exec (cmd : String)
  | cmd_action (template : String) (pin : Option Int) (st : SwState) (dur dc : ℚ)
  | pwm_freq (pin : Int) (hertz : Int)
  | pwm_native (pin : Int) (value : ℚ)
  | sample (uid : Nat) (kind : Bool) (value : ℚ)
  | cond_fire (cid aid : Nat)
  | email_sent (recipient : String)
  | email_suppressed
  | lcd_flash (lcd : Nat)
  | not_implemented
deriving DecidableEq, Repr

/-- Metric kind for `sample` events: `true` is `'duration_sec'`, `false` is
`'duty_cycle'`. -/
def durationSec : Bool := true

/-- Metric kind `'duty_cycle'`. -/
def dutyCycleKind : Bool := false

/-- Result of `output_on_off`: the Python return value (`None`, `0` or `1`),
the post state, and the emitted events. -/
structure SwResult where
  ret : Option Nat
  state : Controller
  events : List Event

/-- Result of the part of `output_on_off` before the conditional check:
either an early `return` (value, state, events), or fall-through to the
`trigger_conditionals` block carrying the possibly reassigned local
`duration` variable. -/
inductive PreResult where
  | early (ret : Option Nat) (s : Controller) (ev : List Event)
  | fall (s : Controller) (ev : List Event) (dur : ℚ)

/-- State component of a `PreResult`. -/
def PreResult.st : PreResult → Controller
  | .early _ s _ => s
  | .fall s _ _ => s

/-- Return value a `PreResult` induces for `output_on_off` (fall-through
returns Python `None`). -/
def PreResult.retOf : PreResult → Option Nat
  | .early r _ _ => r
  | .fall _ _ _ => none

/-- Python truthiness of an optional pin number (`self.output_pin[id]`):
`None` and `0` are falsy. -/
def pinTruthy : Option Int → Bool
  | none => false
  | some p => p != 0

/-- Python truthiness of an optional command string: `None` and `''` are
falsy. -/
def strTruthy : Option String → Bool
  | none => false
  | some c => !c.isEmpty

/-- Embedding of `OutputController._is_setup`. -/
def is_setup (s : Controller) (id : Nat) : Bool :=
  let c := s.static.conf id
  match c.otype with
  | .wired => pinTruthy c.pin
  | .command => true
  | .wireless => true
  | .pwm => s.static.pwm_has id

/-- Embedding of `OutputController.is_on`.  A wired output is on when its
GPIO level equals its trigger polarity; command/wireless outputs are on when
`output_time_turned_on` is set; PWM outputs when `pwm_time_turned_on` is
set. -/
def is_on (s : Controller) (id : Nat) : Bool :=
  let c := s.static.conf id
  match c.otype with
  | .wired =>
    is_setup s id &&
      (match c.pin with
       | some p => c.trigger == s.rt.gpio p
       | none => false)
  | .command => (s.rt.time_turned_on id).isSome
  | .wireless => (s.rt.time_turned_on id).isSome
  | .pwm => (s.rt.pwm_time_turned_on id).isSome

/-- Embedding of `OutputController.current_amp_load`: the sum of the rated
amp draw of every registered output that `is_on`. -/
def current_amp_load (s : Controller) : ℚ :=
  (s.static.outputs.map
    (fun id => if is_on s id then (s.static.conf id).amps else 0)).sum

/-- Embedding of `OutputController.output_state`: `'on'`, `'off'`, or (for a
PWM output with a truthy stored duty) the stored duty value. -/
inductive ObsState where
  | on
  | off
  | duty (v : ℚ)
deriving DecidableEq, Repr

/-- Embedding of `OutputController.output_state`. -/
def output_state (s : Controller) (id : Nat) : ObsState :=
  let c := s.static.conf id
  match c.otype with
  | .wired =>
    match c.pin with
    | some p => if c.trigger == s.rt.gpio p then .on else .off
    | none => .off
  | .command => if (s.rt.time_turned_on id).isSome then .on else .off
  | .wireless => if (s.rt.time_turned_on id).isSome then .on else .off
  | .pwm =>
    match s.rt.pwm_state id with
    | some v => if v ≠ 0 then .duty v else .off
    | none => .off

/-- Embedding of `OutputController.output_switch`: the hardware effect of a
state change, with no runtime bookkeeping except the PWM duty record. -/
def output_switch (s : Controller) (id : Nat) (st : SwState) (dc : ℚ) :
    Controller × List Event :=
  let c := s.static.conf id
  match c.otype with
  | .wired =>
    match c.pin with
    | some p =>
      match st with
      | .on =>
        ({ s with rt := { s.rt with gpio := Function.update s.rt.gpio p c.trigger } },
         [.gpio_write p c.trigger])
      | .off =>
        ({ s with rt := { s.rt with gpio := Function.update s.rt.gpio p (!c.trigger) } },
         [.gpio_write p (!c.trigger)])
    | none => (s, [])
  | .wireless =>
    match st with
    | .on => (s, [.transmit (c.on_command.getD "")])
    | .off => (s, [.transmit (c.off_command.getD "")])
  | .command =>
    match st with
    | .on => if strTruthy c.on_command then (s, [.cmd_exec (c.on_command.getD "")]) else (s, [])
    | .off => if strTruthy c.off_command then (s, [.cmd_exec (c.off_command.getD "")]) else (s, [])
  | .pwm =>
    let p := c.pin.getD 0
    match st with
    | .on =>
      let ev :=
        match c.pwm_library with
        | .pigpio_hardware => [Event.pwm_native p (|dc| * 10000)]
        | .pigpio_any =>
          let calc0 : Int := Int.floor ((|dc| / 100) * 255)
          let calc1 : Int := if calc0 > 255 then 255 else calc0
          let calc2 : Int := if calc1 < 0 then 0 else calc1
          [Event.pwm_freq p c.pwm_hertz, Event.pwm_native p (calc2 : ℚ)]
        | .other => []
      ({ s with rt := { s.rt with pwm_state := Function.update s.rt.pwm_state id (some |dc|) } },
       ev)
    | .off =>
      let ev :=
        match c.pwm_library with
        | .pigpio_hardware => [Event.pwm_native p 0]
        | .pigpio_any => [Event.pwm_freq p c.pwm_hertz, Event.pwm_native p 0]
        | .other => []
      ({ s with rt := { s.rt with pwm_state := Function.update s.rt.pwm_state id none } },
       ev)

/-- Embedding of the email-throttle block of `check_conditionals`
(the `do_action == 'email'` case): given the hourly maximum, the clock, the
current count and window boundary, return the `allowed_to_send_notice` flag
and the updated count and window.  Note the source increments
`self.email_count` unconditionally, after choosing the flag. -/
def email_throttle (maxCount : Nat) (now : ℚ) (count : Nat) (wait : ℚ) :
    Bool × Nat × ℚ :=
  if count ≥ maxCount ∧ now < wait then
    (false, count + 1, wait)
  else
    let reset := now > wait
    let count1 := if reset then 0 else count
    let wait1 := if reset then now + 3600 else wait
    (true, count1 + 1, wait1)

/-- Signature of the recursive re-entry used by the `'relay'` conditional
action (`self.output_on_off(do_relay_id, do_relay_state, duration)`). -/
def Recur : Type := Controller → Nat → SwState → ℚ → SwResult

/-- Embedding of the rule filtering of `check_conditionals`: active rules
bound to `id`, then filtered by the output's observed state exactly as the
two successive SQLAlchemy filters do. -/
def matched_rules (cfg : Config) (s : Controller) (id : Nat) (dur : ℚ) :
    List Cond :=
  let base := cfg.conditionals.filter
    (fun c => c.if_relay_id == id && c.is_activated)
  if is_on s id then
    let onmatch := base.filter
      (fun c => c.if_relay_state == RuleState.on || c.if_relay_state == RuleState.on_any)
    onmatch.filter
      (fun c => c.if_relay_state == RuleState.on_any ||
        (c.if_relay_state == RuleState.on && decide (c.if_relay_duration = dur)))
  else
    base.filter (fun c => c.if_relay_state == RuleState.off)

/-- Embedding of one conditional action's execution (the body of the inner
loop of `check_conditionals`). -/
def run_action (cfg : Config) (recur : Recur) (now : ℚ) (outId : Nat)
    (st : SwState) (dur dc : ℚ) (a : CondAction) (s : Controller) :
    Controller × List Event :=
  match a.do_action with
  | .relay =>
    if a.do_relay_id ∈ s.static.outputs then
      let r :=
        if a.do_relay_duration = 0 then
          recur s a.do_relay_id a.do_relay_state 0
        else
          recur s a.do_relay_id a.do_relay_state a.do_relay_duration
      (r.state, r.events)
    else
      (s, [])
  | .command =>
    (s, [.cmd_action a.do_action_string (s.static.conf outId).pin st dur dc])
  | .email =>
    let t := email_throttle cfg.smtp_max_count now s.rt.email_count s.rt.smtp_wait_time
    let s' := { s with rt := { s.rt with
      email_count := t.2.1
      smtp_wait_time := t.2.2
      allowed_to_send := t.1 } }
    if t.1 then (s', [.email_sent a.do_action_string]) else (s', [.email_suppressed])
  | .flash_lcd => (s, [.lcd_flash a.do_lcd_id])
  | .photo => (s, [.not_implemented])
  | .video => (s, [.not_implemented])

/-- Embedding of one matched rule's action cascade: every action bound to the
rule, in order, each announced by a `cond_fire` event (the audit message the
source logs per action). -/
def run_rule (cfg : Config) (recur : Recur) (now : ℚ) (outId : Nat)
    (st : SwState) (dur dc : ℚ) (c : Cond) (s : Controller) :
    Controller × List Event :=
  (cfg.cond_actions.filter (fun a => a.conditional_id == c.cid)).foldl
    (fun acc a =>
      let r := run_action cfg recur now outId st dur dc a acc.1
      (r.1, acc.2 ++ Event.cond_fire c.cid a.aid :: r.2))
    (s, [])

/-- Embedding of `OutputController.check_conditionals`. -/
def check_conditionals (cfg : Config) (recur : Recur) (now : ℚ)
    (s : Controller) (id : Nat) (st : SwState) (dur dc : ℚ) :
    Controller × List Event :=
  (matched_rules cfg s id dur).foldl
    (fun acc c =>
      let r := run_rule cfg recur now id st dur dc c acc.1
      (r.1, acc.2 ++ r.2))
    (s, [])

/-- The on/off dispatch of `output_on_off` after the safety checks have
passed (lines 245-413 of the source): the timed-on branches, the untimed-on
branch, the PWM branch, and the off branch. -/
def on_dispatch (s : Controller) (id : Nat) (now duration duty_cycle : ℚ) :
    PreResult :=
  let c := s.static.conf id
  let cwl := c.otype = .command ∨ c.otype = .wired ∨ c.otype = .wireless
  if cwl ∧ duration ≠ 0 then
    if is_on s id ∧ s.rt.on_duration id then
      -- already on for a duration: update the interval and return 0
      let remaining := if s.rt.on_until id > now then s.rt.on_until id - now else 0
      let time_on := s.rt.last_duration id - remaining
      let s' := { s with rt := { s.rt with
        on_until := Function.update s.rt.on_until id (now + duration)
        last_duration := Function.update s.rt.last_duration id duration } }
      let ev := if time_on > 0 then
          [Event.sample c.unique_id durationSec time_on] else []
      .early (some 0) s' ev
    else if is_on s id ∧ s.static.outputs = [] then
      -- source guard is `not self.output_on_duration` on the whole dict,
      -- which is falsy only when no output is registered
      let s' := { s with rt := { s.rt with
        on_duration := Function.update s.rt.on_duration id true
        on_until := Function.update s.rt.on_until id (now + duration)
        last_duration := Function.update s.rt.last_duration id duration } }
      .early (some 0) s' []
    else
      let s' := { s with rt := { s.rt with
        on_until := Function.update s.rt.on_until id (now + duration)
        on_duration := Function.update s.rt.on_duration id true
        last_duration := Function.update s.rt.last_duration id duration } }
      let r := output_switch s' id .on duty_cycle
      .fall r.1 r.2 duration
  else if cwl then
    if is_on s id then
      .early (some 1) s []
    else
      let s' := { s with rt := { s.rt with
        time_turned_on := Function.update s.rt.time_turned_on id (some now) } }
      let r := output_switch s' id .on duty_cycle
      .fall r.1 r.2 duration
  else if c.otype = .pwm then
    if c.pwm_hertz ≤ 0 then
      .early (some 1) s []
    else
      let s' := { s with rt := { s.rt with
        pwm_time_turned_on := Function.update s.rt.pwm_time_turned_on id (some now) } }
      let r := output_switch s' id .on duty_cycle
      .fall r.1 (r.2 ++ [Event.sample c.unique_id dutyCycleKind duty_cycle]) duration
  else
    .fall s [] duration

/-- The off branch of `output_on_off` (lines 356-413 of the source). -/
def off_path (s : Controller) (id : Nat) (now duration duty_cycle : ℚ) :
    PreResult :=
  let c := s.static.conf id
  if ¬ is_setup s id then
    .early none s []
  else if (c.otype = .pwm ∨ c.otype = .wired ∨ c.otype = .wireless) ∧ c.pin = none then
    .early none s []
  else
    let r := output_switch s id .off duty_cycle
    let s1 := r.1
    if c.otype = .pwm ∧ (s1.rt.pwm_time_turned_on id).isSome then
      let t := (s1.rt.pwm_time_turned_on id).getD 0
      let dur := now - t
      let s2 := { s1 with rt := { s1.rt with
        pwm_time_turned_on := Function.update s1.rt.pwm_time_turned_on id none } }
      .fall s2 (r.2 ++ [Event.sample c.unique_id dutyCycleKind duty_cycle]) dur
    else if (s1.rt.time_turned_on id).isSome ∨ s1.rt.on_duration id then
      let p1 : Controller × ℚ :=
        if s1.rt.on_duration id then
          let remaining := if s1.rt.on_until id > now then s1.rt.on_until id - now else 0
          ({ s1 with rt := { s1.rt with
              on_duration := Function.update s1.rt.on_duration id false
              on_until := Function.update s1.rt.on_until id now } },
           s1.rt.last_duration id - remaining)
        else (s1, 0)
      let p2 : Controller × ℚ :=
        match p1.1.rt.time_turned_on id with
        | some t =>
          ({ p1.1 with rt := { p1.1.rt with
              time_turned_on := Function.update p1.1.rt.time_turned_on id none } },
           now - t)
        | none => p1
      .fall p2.1 (r.2 ++ [Event.sample c.unique_id durationSec p2.2]) p2.2
    else
      .fall s1 r.2 duration

/-- Embedding of `output_on_off` up to (but excluding) the final
`trigger_conditionals` block: the registry check, the pin / amp / min-off
safety checks, and the on/off dispatch. -/
def output_pre (cfg : Config) (now : ℚ) (s : Controller) (id : Nat)
    (st : SwState) (duration min_off duty_cycle : ℚ) : PreResult :=
  if id ∈ s.static.outputs then
    match st with
    | .on =>
      let c := s.static.conf id
      let cwl := c.otype = .command ∨ c.otype = .wired ∨ c.otype = .wireless
      if (c.otype = .pwm ∨ c.otype = .wired ∨ c.otype = .wireless) ∧ c.pin = none then
        .early (some 1) s []
      else if cwl ∧ current_amp_load s + c.amps > cfg.max_amps then
        .early (some 1) s []
      else if cwl ∧ min_off ≠ 0 ∧ is_on s id = false ∧ now > s.rt.on_until id ∧
          now - s.rt.on_until id < min_off then
        .early (some 1) s []
      else
        on_dispatch s id now duration duty_cycle
    | .off => off_path s id now duration duty_cycle
  else
    .early (some 1) s []

/-- Embedding of `OutputController.output_on_off`.  `fuel` bounds the depth
of the relay-action cascade (the Python recursion); every other aspect is
exactly the source.  The return value is `some 1` for a denial, `some 0` for
the two timed-on early returns, and `none` (Python `None`) otherwise. -/
def output_on_off (cfg : Config) :
    Nat → ℚ → Controller → Nat → SwState → ℚ → ℚ → ℚ → Bool → SwResult
  | 0, _, s, _, _, _, _, _, _ => ⟨none, s, []⟩
  | fuel + 1, now, s, id, st, duration, min_off, duty_cycle, trig =>
    match output_pre cfg now s id st duration min_off duty_cycle with
    | .early r s' ev => ⟨r, s', ev⟩
    | .fall s' ev dur' =>
      if trig then
        let r := check_conditionals cfg
          (fun s2 rid rst rdur => output_on_off cfg fuel now s2 rid rst rdur 0 0 true)
          now s' id st dur' duty_cycle
        ⟨none, r.1, ev ++ r.2⟩
      else
        ⟨none, s', ev⟩

/-- One output's treatment in one pass of the `run` polling loop: if the
timed on-interval has expired (and a pin is configured), issue an off request
through `output_on_off` and write the `duration_sec` sample the loop itself
emits. -/
def tick_step (cfg : Config) (fuel : Nat) (now : ℚ) (s : Controller)
    (id : Nat) : Controller × List Event :=
  if s.rt.on_until id < now ∧ s.rt.on_duration id ∧ (s.static.conf id).pin ≠ none then
    let r := output_on_off cfg fuel now s id .off 0 0 0 true
    let ev2 := if s.rt.last_duration id > 0 then
        [Event.sample (s.static.conf id).unique_id durationSec (s.rt.last_duration id)]
      else []
    (r.state, r.events ++ ev2)
  else
    (s, [])

/-- One pass of the scheduler loop body of `OutputController.run` over all
registered outputs. -/
def tick (cfg : Config) (fuel : Nat) (now : ℚ) (s : Controller) :
    Controller × List Event :=
  s.static.outputs.foldl
    (fun acc id =>
      let r := tick_step cfg fuel now acc.1 id
      (r.1, acc.2 ++ r.2))
    (s, [])

/-- Sum of the rated amp draw of all currently-on outputs of the
current-drawing kinds (command, wired, wireless): the restriction of
`current_amp_load` to exactly the kinds the amp budget check guards. -/
def drawLoad (s : Controller) : ℚ :=
  (s.static.outputs.map
    (fun id =>
      if ((s.static.conf id).otype = .command ∨ (s.static.conf id).otype = .wired ∨
          (s.static.conf id).otype = .wireless) ∧ is_on s id = true
      then (s.static.conf id).amps else 0)).sum

/-- Well-formedness of the static registry: no duplicate ids, wired outputs
have pairwise distinct pins (no two relays share a GPIO line), and rated
draws are nonnegative. -/
def WF (st : Static) : Prop :=
  st.outputs.Nodup ∧
  (∀ a ∈ st.outputs, ∀ b ∈ st.outputs,
    (st.conf a).otype = .wired → (st.conf b).otype = .wired →
    (st.conf a).pin = (st.conf b).pin → a = b) ∧
  (∀ a ∈ st.outputs, 0 ≤ (st.conf a).amps)

/-- One transition of the controller: an arbitrary `output_on_off` request
or one pass of the scheduler loop, at an arbitrary time. -/
inductive Step (cfg : Config) : Controller → Controller → Prop where
  | switch (fuel : Nat) (now : ℚ) (s : Controller) (id : Nat) (st : SwState)
      (duration min_off duty_cycle : ℚ) (trig : Bool) :
      Step cfg s (output_on_off cfg fuel now s id st duration min_off duty_cycle trig).state
  | sched (fuel : Nat) (now : ℚ) (s : Controller) :
      Step cfg s (tick cfg fuel now s).1

/-- States reachable from `s0` under any sequence of requests and scheduler
passes. -/
inductive Reachable (cfg : Config) (s0 : Controller) : Controller → Prop where
  | refl : Reachable cfg s0 s0
  | tail {s s' : Controller} : Reachable cfg s0 s → Step cfg s s' → Reachable cfg s0 s'

/-- All registered outputs observe state off. -/
def all_off (s : Controller) : Prop :=
  ∀ id ∈ s.static.outputs, is_on s id = false

/-- The `duration_sec` sample values in an event trace. -/
def durationSamples (l : List Event) : List ℚ :=
  l.filterMap (fun e =>
    match e with
    | .sample _ k v => if k = durationSec then some v else none
    | _ => none)

/-- The native PWM duty values written to the pigpio backend in an event
trace. -/
def pwmNatives (l : List Event) : List ℚ :=
  l.filterMap (fun e =>
    match e with
    | .pwm_native _ v => some v
    | _ => none)

/-- Modelled from the spec: the translation the spec describes for a PWM
duty-cycle percentage, "duty-cycle percentage (0-100, clamped)" rendered in
the pigpio-hardware native unit (1 % = 10000 native units). -/
def spec_clamped_native (dc : ℚ) : ℚ := (max 0 (min 100 dc)) * 10000

/-- Runtime state with everything off / zeroed, email window ending at
3600. -/
def rtInit : Runtime :=
  ⟨fun _ => 0, fun _ => 0, fun _ => false, fun _ => none, fun _ => none,
   fun _ => none, fun _ => false, 0, 3600, true⟩

/-- Two wired outputs X = 1 (pin 17) and Y = 2 (pin 27), each drawing 6 A. -/
def wiredConf : Nat → OutConf := fun id =>
  if id = 1 then ⟨.wired, some 17, true, 6, 0, .other, none, none, 101⟩
  else if id = 2 then ⟨.wired, some 27, true, 6, 0, .other, none, none, 102⟩
  else ⟨.command, none, true, 0, 0, .other, none, none, 0⟩

/-- Controller state for the two wired outputs, everything off. -/
def wiredState : Controller := ⟨⟨[1, 2], wiredConf, fun _ => false⟩, rtInit⟩

/-- Configuration with a 10 A budget and no conditional rules. -/
def ampCfg : Config := ⟨10, 1, [], []⟩

/-- Scenario step 1: turn X on (succeeds). -/
def scenA1 : SwResult := output_on_off ampCfg 1 0 wiredState 1 .on 0 0 0 true

/-- Scenario step 2: turn Y on (denied, budget). -/
def scenA2 : SwResult := output_on_off ampCfg 1 1 scenA1.state 2 .on 0 0 0 true

/-- Scenario step 3: turn X off. -/
def scenA3 : SwResult := output_on_off ampCfg 1 2 scenA2.state 1 .off 0 0 0 true

/-- Scenario step 4: turn Y on (succeeds). -/
def scenA4 : SwResult := output_on_off ampCfg 1 3 scenA3.state 2 .on 0 0 0 true

/-- A single command-kind output drawing 1 A, with on/off shell commands. -/
def cmdConf : Nat → OutConf := fun _ =>
  ⟨.command, none, true, 1, 0, .other, some "go", some "stop", 201⟩

/-- Controller state for the command output, off. -/
def cmdState : Controller := ⟨⟨[1], cmdConf, fun _ => false⟩, rtInit⟩

/-- The command output turned on untimed at time 0. -/
def cmdOnState : SwResult := output_on_off ampCfg 1 0 cmdState 1 .on 0 0 0 true

/-- The already-on-untimed command output requested on with duration 5 at
time 10 (the conversion scenario of the spec). -/
def cmdConvert : SwResult := output_on_off ampCfg 1 10 cmdOnState.state 1 .on 5 0 0 true

/-- A single PWM output on pin 18 at 100 Hz drawing 20 A, with a pigpio
handle present. -/
def pwmConf (lib : PwmLib) : Nat → OutConf := fun _ =>
  ⟨.pwm, some 18, true, 20, 100, lib, none, none, 301⟩

/-- Controller state for the PWM output, off. -/
def pwmState (lib : PwmLib) : Controller := ⟨⟨[1], pwmConf lib, fun _ => true⟩, rtInit⟩

/-- PWM on-request with a given duty cycle, hardware or any library. -/
def pwmOn (lib : PwmLib) (dc : ℚ) : SwResult :=
  output_on_off ampCfg 1 0 (pwmState lib) 1 .on 0 0 dc true

/-- A rule on output 1 watching `on` with required duration 30, with a
flash-LCD action. -/
def ruleCfgOn : Config :=
  ⟨10, 1, [⟨100, 1, true, .on, 30⟩], [⟨200, 100, .flash_lcd, 0, .off, 0, "", 7⟩]⟩

/-- The same rule watching `on_any`. -/
def ruleCfgOnAny : Config :=
  ⟨10, 1, [⟨100, 1, true, .on_any, 30⟩], [⟨200, 100, .flash_lcd, 0, .off, 0, "", 7⟩]⟩

/-- The same rule watching `off`. -/
def ruleCfgOff : Config :=
  ⟨10, 1, [⟨100, 1, true, .off, 0⟩], [⟨200, 100, .flash_lcd, 0, .off, 0, "", 7⟩]⟩

/-- Turn output 1 on with requested duration `d` under the `on`-watching
rule. -/
def ruleRunOn (d : ℚ) : SwResult := output_on_off ruleCfgOn 1 0 wiredState 1 .on d 0 0 true

/-- Turn output 1 on with requested duration `d` under the `on_any` rule. -/
def ruleRunOnAny (d : ℚ) : SwResult := output_on_off ruleCfgOnAny 1 0 wiredState 1 .on d 0 0 true

/-- Output 1 turned on without triggering rules (to then test off rules). -/
def ruleOffPre : SwResult := output_on_off ruleCfgOff 1 0 wiredState 1 .on 0 0 0 false

/-- Off-request on the on output under the `off`-watching rule. -/
def ruleRunOff : SwResult := output_on_off ruleCfgOff 1 1 ruleOffPre.state 1 .off 0 0 0 true

/-- On-request with duration 30 under the `off`-watching rule. -/
def ruleRunOffNeg : SwResult := output_on_off ruleCfgOff 1 0 wiredState 1 .on 30 0 0 true

/-- An email conditional action row. -/
def emailAction : CondAction := ⟨210, 100, .email, 0, .off, 0, "ops", 0⟩

/-- Timed-on request on output X with symbolic duration, then one scheduler
pass. -/
def timedOn (d : ℚ) : SwResult := output_on_off ampCfg 1 0 wiredState 1 .on d 0 0 true

/-- The scheduler pass following `timedOn`. -/
def timedTick (d t1 : ℚ) : Controller × List Event := tick ampCfg 1 t1 (timedOn d).state

/-- The controller state produced by a timed on-request on wired output 1 at
time 0 with duration `d` (the fall-through state of the timed-on path). -/
def ruleOnState (d : ℚ) : Controller :=
  ⟨⟨[1, 2], wiredConf, fun _ => false⟩,
   { rtInit with
      on_until := Function.update rtInit.on_until 1 d
      on_duration := Function.update rtInit.on_duration 1 true
      last_duration := Function.update rtInit.last_duration 1 d
      gpio := Function.update rtInit.gpio 17 true }⟩

/-- The controller state after the scheduler pass turns wired output 1 off at
time `t1` following a timed on of duration `d`. -/
def expiredState (d t1 : ℚ) : Controller :=
  ⟨⟨[1, 2], wiredConf, fun _ => false⟩,
   { rtInit with
      on_until := Function.update rtInit.on_until 1 t1
      on_duration := Function.update rtInit.on_duration 1 false
      last_duration := Function.update rtInit.last_duration 1 d
      gpio := Function.update rtInit.gpio 17 false }⟩

/-- A recursion stub for exercising single conditional actions that do not
re-enter `output_on_off`. -/
def noRecur : Recur := fun s _ _ _ => ⟨none, s, []⟩

/-- Controller state whose email counter has reached the hourly maximum of
`ampCfg` (1 email), with the window ending at 3600. -/
def emailState1 : Controller :=
  ⟨⟨[1], cmdConf, fun _ => false⟩, { rtInit with email_count := 1 }⟩

/-- C8: calling the switch entry point with an id that is not in the
registry returns 1 and leaves the state untouched, with no hardware event
and no cascade. -/
theorem switch_unknown_id_no_effect (cfg : Config) (fuel : Nat) (now : ℚ)
    (s : Controller) (id : Nat) (st : SwState) (duration min_off duty_cycle : ℚ)
    (trig : Bool) (h : id ∉ s.static.outputs) :
    output_on_off cfg (fuel + 1) now s id st duration min_off duty_cycle trig =
      ⟨some 1, s, []⟩ := by
  simp [output_on_off, output_pre, h]

/-- Witness for `switch_unknown_id_no_effect` at output id 99. -/
theorem switch_unknown_id_witness :
    output_on_off ampCfg 1 0 wiredState 99 .on 0 0 0 true = ⟨some 1, wiredState, []⟩ :=
  switch_unknown_id_no_effect ampCfg 0 0 wiredState 99 .on 0 0 0 true
    (by with_unfolding_all decide)

/-- C10: an untimed on-request (duration 0) on a current-drawing output that
is already on returns 1, performs no hardware switch, and changes no runtime
state. -/
theorem untimed_on_already_on_denied (cfg : Config) (fuel : Nat) (now : ℚ)
    (s : Controller) (id : Nat) (min_off duty_cycle : ℚ) (trig : Bool)
    (hmem : id ∈ s.static.outputs)
    (hkind : (s.static.conf id).otype = .command ∨ (s.static.conf id).otype = .wired ∨
      (s.static.conf id).otype = .wireless)
    (hon : is_on s id = true) :
    output_on_off cfg (fuel + 1) now s id .on 0 min_off duty_cycle trig =
      ⟨some 1, s, []⟩ := by
  simp only [output_on_off, output_pre, if_pos hmem]
  split_ifs <;> simp_all [on_dispatch]

/-- Witness for `untimed_on_already_on_denied`: output 1 of the amp scenario
is on after step 1, and a second untimed on-request is denied without
effect. -/
theorem untimed_on_already_on_witness :
    output_on_off ampCfg 1 5 scenA1.state 1 .on 0 0 0 true = ⟨some 1, scenA1.state, []⟩ :=
  untimed_on_already_on_denied ampCfg 0 5 scenA1.state 1 0 0 true
    (by with_unfolding_all decide) (by with_unfolding_all decide)
    (by with_unfolding_all decide)

/-- C1: a turn-on request on a current-drawing output whose draw would push
the total over the configured maximum returns 1 and switches nothing; and
the concrete 10 A / 6 A / 6 A scenario behaves as specified (X on succeeds
with load 6, Y on denied leaving load 6, X off, then Y on succeeds with
load 6). -/
theorem amp_budget_denies_and_scenario :
    (∀ (cfg : Config) (fuel : Nat) (now : ℚ) (s : Controller) (id : Nat)
      (duration min_off duty_cycle : ℚ) (trig : Bool),
      id ∈ s.static.outputs →
      ((s.static.conf id).otype = .command ∨ (s.static.conf id).otype = .wired ∨
        (s.static.conf id).otype = .wireless) →
      current_amp_load s + (s.static.conf id).amps > cfg.max_amps →
      output_on_off cfg (fuel + 1) now s id .on duration min_off duty_cycle trig =
        ⟨some 1, s, []⟩) ∧
    (scenA1.ret = none ∧ is_on scenA1.state 1 = true ∧
     current_amp_load scenA1.state = 6 ∧
     scenA2.ret = some 1 ∧ is_on scenA2.state 2 = false ∧
     current_amp_load scenA2.state = 6 ∧ scenA2.events = [] ∧
     scenA3.ret = none ∧ current_amp_load scenA3.state = 0 ∧
     scenA4.ret = none ∧ is_on scenA4.state 2 = true ∧
     current_amp_load scenA4.state = 6) := by
  constructor
  · intro cfg fuel now s id duration min_off duty_cycle trig hmem hkind hamp
    simp only [output_on_off, output_pre, if_pos hmem]
    split_ifs <;> simp_all
  · with_unfolding_all decide

/-- Witness for `amp_budget_denies_and_scenario`: the denial of scenario
step 2 follows from the general statement. -/
theorem amp_budget_witness :
    output_on_off ampCfg 1 1 scenA1.state 2 .on 0 0 0 true =
      ⟨some 1, scenA1.state, []⟩ :=
  amp_budget_denies_and_scenario.1 ampCfg 0 1 scenA1.state 2 0 0 0 true
    (by with_unfolding_all decide) (by with_unfolding_all decide)
    (by with_unfolding_all decide)

/-- C6: on an output already on without a duration, a second on-request with
duration 5 at time 10 does convert the output to a duration-bound interval
expiring at 15, but the dedicated conversion branch of the source (guarded
by `not self.output_on_duration`, which tests the whole dict) is dead: the
generic branch runs instead, re-issuing the hardware on-command and
returning `None` instead of the branch's `0`. -/
theorem untimed_to_timed_conversion_bug :
    is_on cmdOnState.state 1 = true ∧
    cmdOnState.state.rt.on_duration 1 = false ∧
    cmdOnState.state.static.outputs ≠ [] ∧
    cmdConvert.ret = none ∧ cmdConvert.ret ≠ some 0 ∧
    cmdConvert.state.rt.on_until 1 = 15 ∧
    cmdConvert.state.rt.on_duration 1 = true ∧
    cmdConvert.state.rt.last_duration 1 = 5 ∧
    cmdConvert.events = [Event.cmd_exec "go"] ∧
    is_on cmdConvert.state 1 = true := by
  with_unfolding_all decide

theorem off_path_ret (s : Controller) (id : Nat) (now d dc : ℚ) :
    (off_path s id now d dc).retOf = none := by
  by_cases h1 : is_setup s id = true
  case neg =>
    simp only [off_path]
    simp [h1, PreResult.retOf]
  by_cases h2 : ((s.static.conf id).otype = OutKind.pwm ∨ (s.static.conf id).otype = OutKind.wired ∨
      (s.static.conf id).otype = OutKind.wireless) ∧ (s.static.conf id).pin = none
  case pos =>
    simp only [off_path]
    simp [h1, h2, PreResult.retOf]
  by_cases h3 : (s.static.conf id).otype = OutKind.pwm ∧
      ((output_switch s id SwState.off dc).1.rt.pwm_time_turned_on id).isSome = true
  case pos =>
    have hpin : ¬ (s.static.conf id).pin = none := fun hh => h2 ⟨Or.inl h3.1, hh⟩
    simp only [off_path]
    simp [h1, h2, h3, hpin]
    try simp [apply_ite PreResult.retOf, PreResult.retOf]
  by_cases h4 : ((output_switch s id SwState.off dc).1.rt.time_turned_on id).isSome = true ∨
      (output_switch s id SwState.off dc).1.rt.on_duration id = true
  all_goals
    simp only [off_path]
    simp [h1, h2, h3, h4]
    try simp [apply_ite PreResult.retOf, PreResult.retOf]

theorem on_dispatch_ret (s : Controller) (id : Nat) (now d dc : ℚ) :
    (on_dispatch s id now d dc).retOf = none ∨
    (on_dispatch s id now d dc).retOf = some 0 ∨
    (on_dispatch s id now d dc).retOf = some 1 := by
  by_cases h1 : ((s.static.conf id).otype = OutKind.command ∨ (s.static.conf id).otype = OutKind.wired ∨
      (s.static.conf id).otype = OutKind.wireless) ∧ d ≠ 0
  · by_cases h2 : is_on s id = true ∧ s.rt.on_duration id = true
    · simp only [on_dispatch]
      simp [h1, h2]
      try simp [apply_ite PreResult.retOf, PreResult.retOf]
    · by_cases h3 : is_on s id = true ∧ s.static.outputs = []
      · have hod : ¬ s.rt.on_duration id = true := fun hh => h2 ⟨h3.1, hh⟩
        simp only [on_dispatch]
        simp [h1, h2, h3, hod]
        try simp [apply_ite PreResult.retOf, PreResult.retOf]
      · simp only [on_dispatch]
        simp [h1, h2, h3]
        try simp [apply_ite PreResult.retOf, PreResult.retOf]
  · by_cases h4 : (s.static.conf id).otype = OutKind.command ∨ (s.static.conf id).otype = OutKind.wired ∨
        (s.static.conf id).otype = OutKind.wireless
    · have hd : d = 0 := by by_contra hh; exact h1 ⟨h4, hh⟩
      by_cases h5 : is_on s id = true
      all_goals
        simp only [on_dispatch]
        simp [h1, h4, h5, hd]
        try simp [apply_ite PreResult.retOf, PreResult.retOf]
    · by_cases h6 : (s.static.conf id).otype = OutKind.pwm
      · by_cases h7 : (s.static.conf id).pwm_hertz ≤ 0
        all_goals
          simp only [on_dispatch]
          simp [h1, h4, h6, h7]
          try simp [apply_ite PreResult.retOf, PreResult.retOf]
      · simp only [on_dispatch]
        simp [h1, h4, h6]
        try simp [apply_ite PreResult.retOf, PreResult.retOf]

theorem output_pre_ret_cases (cfg : Config) (now : ℚ) (s : Controller) (id : Nat)
    (st : SwState) (d mo dc : ℚ) :
    (output_pre cfg now s id st d mo dc).retOf = none ∨
    (output_pre cfg now s id st d mo dc).retOf = some 0 ∨
    (output_pre cfg now s id st d mo dc).retOf = some 1 := by
  by_cases h0 : id ∈ s.static.outputs
  case neg => simp [output_pre, h0, PreResult.retOf]
  cases st
  · by_cases h1 : ((s.static.conf id).otype = OutKind.pwm ∨ (s.static.conf id).otype = OutKind.wired ∨
        (s.static.conf id).otype = OutKind.wireless) ∧ (s.static.conf id).pin = none
    case pos => simp [output_pre, h0, h1, PreResult.retOf]
    by_cases h2 : ((s.static.conf id).otype = OutKind.command ∨ (s.static.conf id).otype = OutKind.wired ∨
        (s.static.conf id).otype = OutKind.wireless) ∧
        current_amp_load s + (s.static.conf id).amps > cfg.max_amps
    case pos => simp [output_pre, h0, h1, h2, PreResult.retOf]
    by_cases h3 : ((s.static.conf id).otype = OutKind.command ∨ (s.static.conf id).otype = OutKind.wired ∨
        (s.static.conf id).otype = OutKind.wireless) ∧ mo ≠ 0 ∧ is_on s id = false ∧
        now > s.rt.on_until id ∧ now - s.rt.on_until id < mo
    case pos => simp [output_pre, h0, h1, h2, h3, PreResult.retOf]
    have h := on_dispatch_ret s id now d dc
    simp only [output_pre]
    simp [h0, h1, h2, h3]
    exact h
  · exact Or.inl (by simpa [output_pre, h0] using off_path_ret s id now d dc)

theorem output_on_off_ret_values (cfg : Config) (fuel : Nat) (now : ℚ) (s : Controller)
    (id : Nat) (st : SwState) (d mo dc : ℚ) (trig : Bool) :
    (output_on_off cfg fuel now s id st d mo dc trig).ret = none ∨
    (output_on_off cfg fuel now s id st d mo dc trig).ret = some 0 ∨
    (output_on_off cfg fuel now s id st d mo dc trig).ret = some 1 := by
  cases fuel with
  | zero => left; rfl
  | succ fuel =>
    have h := output_pre_ret_cases cfg now s id st d mo dc
    simp only [output_on_off]
    rcases h2 : output_pre cfg now s id st d mo dc with ⟨r, s2, ev⟩ | ⟨s2, ev, dur⟩
    · rw [h2] at h
      simp only [h2]
      simpa [PreResult.retOf] using h
    · simp only [h2]
      split <;> simp

/-- C7: amended — the switch entry point returns 1 when a request is denied
or errors; every return value is `None`, 0 or 1; but most successful paths
return `None`: only the timed-on early paths return 0.  Concretely: a
successful fresh untimed on returns `None`; re-timing an already-timed
output returns 0; a successful off returns `None`; the budget denial
returns 1. -/
theorem switch_return_values :
    (∀ (cfg : Config) (fuel : Nat) (now : ℚ) (s : Controller) (id : Nat)
      (st : SwState) (d mo dc : ℚ) (trig : Bool),
      (output_on_off cfg fuel now s id st d mo dc trig).ret = none ∨
      (output_on_off cfg fuel now s id st d mo dc trig).ret = some 0 ∨
      (output_on_off cfg fuel now s id st d mo dc trig).ret = some 1) ∧
    (cmdOnState.ret = none ∧ is_on cmdOnState.state 1 = true) ∧
    (output_on_off ampCfg 1 20 cmdConvert.state 1 .on 7 0 0 true).ret = some 0 ∧
    (output_on_off ampCfg 1 30 cmdOnState.state 1 .off 0 0 0 true).ret = none ∧
    scenA2.ret = some 1 := by
  refine ⟨output_on_off_ret_values, ?_⟩
  with_unfolding_all decide

/-- C7 counterexample: a successful turn-on (command output, previously off,
all checks pass, output ends up on) returns `None`, not the claimed 0. -/
theorem switch_return_counterexample :
    cmdOnState.ret ≠ some 0 ∧ cmdOnState.ret = none ∧
    is_on cmdOnState.state 1 = true := by
  with_unfolding_all decide

theorem pwm_hw_natives (dc : ℚ) :
    pwmNatives (pwmOn .pigpio_hardware dc).events = [|dc| * 10000] := by
  simp [pwmOn, output_on_off, output_pre, on_dispatch, output_switch, check_conditionals,
    matched_rules, run_rule, run_action, current_amp_load, is_on, is_setup, pinTruthy,
    pwmState, pwmConf, ampCfg, rtInit, pwmNatives, durationSec, dutyCycleKind]

theorem pwm_any_natives (dc : ℚ) :
    pwmNatives (pwmOn .pigpio_any dc).events =
      [(((if (if (⌊(|dc| / 100) * 255⌋ : ℤ) > 255 then (255 : ℤ) else ⌊(|dc| / 100) * 255⌋) < 0
          then (0 : ℤ)
          else (if (⌊(|dc| / 100) * 255⌋ : ℤ) > 255 then (255 : ℤ) else ⌊(|dc| / 100) * 255⌋)) : ℤ) : ℚ)] := by
  simp [pwmOn, output_on_off, output_pre, on_dispatch, output_switch, check_conditionals,
    matched_rules, run_rule, run_action, current_amp_load, is_on, is_setup, pinTruthy,
    pwmState, pwmConf, ampCfg, rtInit, pwmNatives, durationSec, dutyCycleKind]
set_option maxRecDepth 2000 in
/-- C9: amended — the duty-cycle percentage is not clamped to 0-100 before
translation: for `pigpio_any` the absolute value is converted and the
resulting native value is clamped to 0..255; for `pigpio_hardware` the
native value is `|dc| * 10000` with no upper clamp; a zero duty cycle drives
the backend with native value 0, records duty 0 (so `output_state` reports
off), and leaves the hardware handle in place. -/
theorem pwm_duty_translation :
    (∀ dc : ℚ, ∃ v : ℚ, pwmNatives (pwmOn .pigpio_any dc).events = [v] ∧
      0 ≤ v ∧ v ≤ 255) ∧
    (∀ dc : ℚ, pwmNatives (pwmOn .pigpio_hardware dc).events = [|dc| * 10000]) ∧
    (pwmNatives (pwmOn .pigpio_hardware 0).events = [0] ∧
     (pwmOn .pigpio_hardware 0).state.rt.pwm_state 1 = some 0 ∧
     output_state (pwmOn .pigpio_hardware 0).state 1 = .off ∧
     (pwmOn .pigpio_hardware 0).state.static.pwm_has 1 = true ∧
     pwmNatives (pwmOn .pigpio_any 0).events = [0] ∧
     (pwmOn .pigpio_any 0).state.rt.pwm_state 1 = some 0 ∧
     (pwmOn .pigpio_any 0).state.static.pwm_has 1 = true) := by
  refine ⟨fun dc => ⟨_, pwm_any_natives dc, ?_, ?_⟩, pwm_hw_natives, ?_⟩
  · have h : (0 : ℤ) ≤ (if (if (⌊(|dc| / 100) * 255⌋ : ℤ) > 255 then (255 : ℤ)
        else ⌊(|dc| / 100) * 255⌋) < 0 then (0 : ℤ)
        else (if (⌊(|dc| / 100) * 255⌋ : ℤ) > 255 then (255 : ℤ)
        else ⌊(|dc| / 100) * 255⌋)) := by split_ifs <;> omega
    exact_mod_cast h
  · have h : (if (if (⌊(|dc| / 100) * 255⌋ : ℤ) > 255 then (255 : ℤ)
        else ⌊(|dc| / 100) * 255⌋) < 0 then (0 : ℤ)
        else (if (⌊(|dc| / 100) * 255⌋ : ℤ) > 255 then (255 : ℤ)
        else ⌊(|dc| / 100) * 255⌋)) ≤ 255 := by split_ifs <;> omega
    exact_mod_cast h
  · refine ⟨?_, ?_, ?_, ?_, ?_, ?_, ?_⟩ <;> with_unfolding_all decide

/-- C9 counterexample: for the `pigpio_hardware` library a duty cycle of
150 % is translated to native value 1500000, not the 1000000 that a 0-100
clamp (as the spec describes) would produce. -/
theorem pwm_duty_clamp_counterexample :
    pwmNatives (pwmOn .pigpio_hardware 150).events = [1500000] ∧
    spec_clamped_native 150 = 1000000 ∧
    ((1500000 : ℚ) ≠ spec_clamped_native 150) := by
  refine ⟨?_, ?_, ?_⟩
  · rw [pwm_hw_natives]
    norm_num
  · norm_num [spec_clamped_native]
  · norm_num [spec_clamped_native]
/-- C4: amended — the email throttle suppresses when the hourly count has
reached the maximum and the window has not elapsed, but the (single) counter
is incremented even for suppressed emails; within the window a non-maxed
count sends and increments; past the hour boundary the count resets to zero
(then the send increments it to 1) and the window restarts.  Concretely, an
email cascade action at the maximum is suppressed (emitting only a
suppressed event) yet bumps the counter from 1 to 2, and after the window
elapses an email is sent with the counter reset. -/
theorem email_throttle_behavior :
    (∀ (m : Nat) (now : ℚ) (cnt : Nat) (wait : ℚ), cnt ≥ m → now < wait →
      email_throttle m now cnt wait = (false, cnt + 1, wait)) ∧
    (∀ (m : Nat) (now : ℚ) (cnt : Nat) (wait : ℚ), ¬(cnt ≥ m ∧ now < wait) →
      now ≤ wait → email_throttle m now cnt wait = (true, cnt + 1, wait)) ∧
    (∀ (m : Nat) (now : ℚ) (cnt : Nat) (wait : ℚ), now > wait →
      email_throttle m now cnt wait = (true, 1, now + 3600)) ∧
    ((run_action ampCfg noRecur 50 1 .on 0 0 emailAction emailState1).2 =
      [.email_suppressed] ∧
     (run_action ampCfg noRecur 50 1 .on 0 0 emailAction emailState1).1.rt.email_count = 2 ∧
     (run_action ampCfg noRecur 4000 1 .on 0 0 emailAction emailState1).2 =
      [.email_sent "ops"] ∧
     (run_action ampCfg noRecur 4000 1 .on 0 0 emailAction emailState1).1.rt.email_count = 1 ∧
     (run_action ampCfg noRecur 4000 1 .on 0 0 emailAction emailState1).1.rt.smtp_wait_time = 7600) := by
  refine ⟨?_, ?_, ?_, ?_⟩
  · intro m now cnt wait h1 h2
    simp [email_throttle, h1, h2]
  · intro m now cnt wait h1 h2
    have h3 : ¬ now > wait := not_lt.mpr h2
    simp [email_throttle, h1, h3]
  · intro m now cnt wait h1
    have h2 : ¬ now < wait := by linarith
    simp [email_throttle, h2, h1]
  · refine ⟨?_, ?_, ?_, ?_, ?_⟩ <;>
      · simp [run_action, email_throttle, emailAction, emailState1, ampCfg, rtInit,
          noRecur, cmdConf]
        norm_num

/-- Witness for `email_throttle_behavior`: the suppression case at maximum
1, count 1, time 50 inside the window ending at 3600. -/
theorem email_throttle_witness :
    email_throttle 1 50 1 3600 = (false, 2, 3600) :=
  email_throttle_behavior.1 1 50 1 3600 (le_refl 1) (by norm_num)

/-- C4 counterexample: a suppressed email cascade action increments the
email counter (from 1 to 2), contradicting the claim that suppressed emails
do not increment the sent count. -/
theorem email_throttle_counterexample :
    (run_action ampCfg noRecur 50 1 .on 0 0 emailAction emailState1).2 =
      [.email_suppressed] ∧
    (run_action ampCfg noRecur 50 1 .on 0 0 emailAction emailState1).1.rt.email_count = 2 ∧
    emailState1.rt.email_count = 1 := by
  refine ⟨?_, ?_, rfl⟩ <;>
    · simp [run_action, email_throttle, emailAction, emailState1, ampCfg, rtInit,
        noRecur, cmdConf]
      norm_num

theorem rule_pre_eval (cfg : Config) (d : ℚ) (hd0 : ¬ d = 0)
    (hmax : cfg.max_amps = 10) :
    output_pre cfg 0 wiredState 1 .on d 0 0 =
      .fall (ruleOnState d) [Event.gpio_write 17 true] d := by
  norm_num [output_pre, on_dispatch, output_switch, wiredState, wiredConf, rtInit,
    is_on, is_setup, pinTruthy, current_amp_load, ruleOnState, hd0, hmax,
    Option.some_ne_none]

theorem check_on_rule_events (s : Controller) (recur : Recur) (now d dc : ℚ)
    (hon : is_on s 1 = true) :
    (check_conditionals ruleCfgOn recur now s 1 .on d dc).2 =
      if (30 : ℚ) = d then [Event.cond_fire 100 200, Event.lcd_flash 7] else [] := by
  by_cases h : (30 : ℚ) = d <;>
    simp [check_conditionals, matched_rules, run_rule, run_action, ruleCfgOn, hon, h,
      decide_eq_false, List.filter_cons, List.filter_nil, List.foldl_cons, List.foldl_nil]

theorem check_onany_rule_events (s : Controller) (recur : Recur) (now d dc : ℚ)
    (hon : is_on s 1 = true) :
    (check_conditionals ruleCfgOnAny recur now s 1 .on d dc).2 =
      [Event.cond_fire 100 200, Event.lcd_flash 7] := by
  simp [check_conditionals, matched_rules, run_rule, run_action, ruleCfgOnAny, hon,
    List.filter_cons, List.filter_nil, List.foldl_cons, List.foldl_nil]

theorem ruleRunOn_events (d : ℚ) (hd0 : ¬ d = 0) :
    (ruleRunOn d).events = Event.gpio_write 17 true ::
      (if (30 : ℚ) = d then [Event.cond_fire 100 200, Event.lcd_flash 7] else []) := by
  have hpre := rule_pre_eval ruleCfgOn d hd0 rfl
  have hon : is_on (ruleOnState d) 1 = true := by
    norm_num [is_on, is_setup, pinTruthy, ruleOnState, wiredConf, rtInit, Function.update]
  simp only [ruleRunOn, output_on_off, hpre, if_pos]
  rw [check_on_rule_events _ _ _ _ _ hon]
  simp

theorem ruleRunOnAny_events (d : ℚ) (hd0 : ¬ d = 0) :
    (ruleRunOnAny d).events =
      [Event.gpio_write 17 true, Event.cond_fire 100 200, Event.lcd_flash 7] := by
  have hpre := rule_pre_eval ruleCfgOnAny d hd0 rfl
  have hon : is_on (ruleOnState d) 1 = true := by
    norm_num [is_on, is_setup, pinTruthy, ruleOnState, wiredConf, rtInit, Function.update]
  simp only [ruleRunOnAny, output_on_off, hpre, if_pos]
  rw [check_onany_rule_events _ _ _ _ _ hon]
  simp
set_option maxRecDepth 4000 in
/-- C5: a rule bound to output 1 watching `on` with required duration 30
fires (its action cascade runs) exactly when output 1 is turned on with
requested duration 30 — not for 0 or 45 or any other duration; a rule
watching `on_any` fires for every on-transition; a rule watching `off`
fires for the off-transition and not for an on-transition. -/
theorem conditional_duration_matching :
    (∀ d : ℚ, (Event.cond_fire 100 200 ∈ (ruleRunOn d).events) ↔ d = 30) ∧
    (∀ d : ℚ, Event.cond_fire 100 200 ∈ (ruleRunOnAny d).events) ∧
    Event.cond_fire 100 200 ∈ ruleRunOff.events ∧
    Event.cond_fire 100 200 ∉ ruleRunOffNeg.events := by
  refine ⟨?_, ?_, ?_, ?_⟩
  · intro d
    by_cases hd0 : d = 0
    · subst hd0
      with_unfolding_all decide
    · rw [ruleRunOn_events d hd0]
      by_cases h30 : (30 : ℚ) = d
      · simp only [if_pos h30]
        simpa using h30.symm
      · simp only [if_neg h30]
        simpa using fun h => h30 h.symm
  · intro d
    by_cases hd0 : d = 0
    · subst hd0
      with_unfolding_all decide
    · rw [ruleRunOnAny_events d hd0]
      simp
  · with_unfolding_all decide
  · with_unfolding_all decide
theorem check_conditionals_nil (cfg : Config) (recur : Recur) (now : ℚ)
    (s : Controller) (id : Nat) (st : SwState) (dur dc : ℚ)
    (h : cfg.conditionals = []) :
    check_conditionals cfg recur now s id st dur dc = (s, []) := by
  simp [check_conditionals, matched_rules, h]

theorem timedOn_eval (d : ℚ) (hd0 : ¬ d = 0) :
    timedOn d = ⟨none, ruleOnState d, [Event.gpio_write 17 true]⟩ := by
  have hpre := rule_pre_eval ampCfg d hd0 rfl
  simp only [timedOn, output_on_off, hpre, if_pos]
  rw [check_conditionals_nil _ _ _ _ _ _ _ _ rfl]
  simp

theorem off_pre_eval (d t1 : ℚ) (ht : d < t1) :
    output_pre ampCfg t1 (ruleOnState d) 1 .off 0 0 0 =
      .fall (expiredState d t1)
        [Event.gpio_write 17 false, Event.sample 101 durationSec d] d := by
  have hgt : ¬ t1 < d := lt_asymm ht
  norm_num [output_pre, off_path, output_switch, ruleOnState, expiredState, wiredConf,
    rtInit, is_on, is_setup, pinTruthy, Function.update_idem, hgt, Option.some_ne_none,
    Function.update_same]

theorem off_call_eval (d t1 : ℚ) (ht : d < t1) :
    output_on_off ampCfg 1 t1 (ruleOnState d) 1 .off 0 0 0 true =
      ⟨none, expiredState d t1,
        [Event.gpio_write 17 false, Event.sample 101 durationSec d]⟩ := by
  simp only [output_on_off, off_pre_eval d t1 ht, if_pos]
  rw [check_conditionals_nil _ _ _ _ _ _ _ _ rfl]
  simp

theorem timedTick_eval (d t1 : ℚ) (hd : 0 < d) (ht : d < t1) :
    timedTick d t1 = (expiredState d t1,
      [Event.gpio_write 17 false, Event.sample 101 durationSec d,
       Event.sample 101 durationSec d]) := by
  have h1 := timedOn_eval d (ne_of_gt hd)
  simp only [timedTick, h1]
  simp only [tick, show (ruleOnState d).static.outputs = [1, 2] from rfl,
    List.foldl_cons, List.foldl_nil]
  rw [show tick_step ampCfg 1 t1 (ruleOnState d) 1 =
      (expiredState d t1,
        [Event.gpio_write 17 false, Event.sample 101 durationSec d,
         Event.sample 101 durationSec d]) from ?_]
  · rw [show tick_step ampCfg 1 t1 (expiredState d t1) 2 = (expiredState d t1, []) from ?_]
    · simp
    · norm_num [tick_step, expiredState, wiredConf, rtInit, Function.update]
  · rw [tick_step, if_pos]
    · rw [off_call_eval d t1 ht]
      norm_num [ruleOnState, rtInit, wiredConf, Function.update_same, hd]
    · refine ⟨?_, ?_, ?_⟩ <;>
        norm_num [ruleOnState, rtInit, wiredConf, Function.update_same, ht,
          Option.some_ne_none]
/-- C3: amended — after an on-request with positive duration `d` at time 0,
a scheduler pass at any time strictly past `d` detects the expiration and
turns the output off, but the interval is recorded twice: the scheduler loop
and the off-request handler each emit one `duration_sec` sample of value
exactly `d` (two samples total, not one). -/
theorem timed_expiration_two_samples (d t1 : ℚ) (hd : 0 < d) (ht : d < t1) :
    is_on (timedTick d t1).1 1 = false ∧
    output_state (timedTick d t1).1 1 = .off ∧
    durationSamples ((timedOn d).events ++ (timedTick d t1).2) = [d, d] := by
  rw [timedOn_eval d (ne_of_gt hd), timedTick_eval d t1 hd ht]
  refine ⟨?_, ?_, ?_⟩ <;>
    norm_num [is_on, is_setup, pinTruthy, output_state, expiredState, wiredConf, rtInit,
      Function.update, durationSamples, durationSec, List.filterMap_cons, List.filterMap_nil]

/-- Witness for `timed_expiration_two_samples` at duration 5 with the
scheduler pass at time 6. -/
theorem timed_expiration_witness :
    is_on (timedTick 5 6).1 1 = false ∧
    output_state (timedTick 5 6).1 1 = .off ∧
    durationSamples ((timedOn 5).events ++ (timedTick 5 6).2) = [5, 5] :=
  timed_expiration_two_samples 5 6 (by norm_num) (by norm_num)

/-- C3 counterexample: for duration 5 expiring before a scheduler pass at
time 6, the trace holds two `duration_sec` samples, not exactly one as
claimed. -/
theorem timed_expiration_counterexample :
    (durationSamples ((timedOn 5).events ++ (timedTick 5 6).2)).length = 2 ∧
    durationSamples ((timedOn 5).events ++ (timedTick 5 6).2) ≠ [(5 : ℚ)] := by
  rw [timedOn_eval 5 (by norm_num), timedTick_eval 5 6 (by norm_num) (by norm_num)]
  norm_num [durationSamples, durationSec, List.filterMap_cons, List.filterMap_nil]
theorem sum_map_ite_eq {l : List Nat} (hnd : l.Nodup) {id : Nat} (hmem : id ∈ l) (c : ℚ) :
    (l.map (fun j => if j = id then c else 0)).sum = c := by
  induction l with
  | nil => cases hmem
  | cons a t ih =>
    obtain ⟨hna, hndt⟩ := List.nodup_cons.mp hnd
    rcases List.mem_cons.mp hmem with h | h
    · have hid_t : id ∉ t := by rw [h]; exact hna
      have hz : (t.map (fun j => if j = id then c else 0)).sum = 0 := by
        rw [List.sum_eq_zero]
        intro x hx
        rcases List.mem_map.mp hx with ⟨j, hj, rfl⟩
        have hji : ¬ j = id := fun hji => hid_t (hji ▸ hj)
        simp [hji]
      simp [List.map_cons, List.sum_cons, hz, ← h]
    · have hne : ¬ a = id := by
        rintro rfl
        exact hna h
      simp [hne, ih hndt h]

theorem is_on_wired_congr (s s' : Controller) (id : Nat)
    (hst : s'.static = s.static) (hg : s'.rt.gpio = s.rt.gpio)
    (hw : (s.static.conf id).otype = OutKind.wired) : is_on s' id = is_on s id := by
  simp only [is_on, is_setup, hst, hg, hw]

theorem drawLoad_eq_of_is_on_eq (s s' : Controller) (hst : s'.static = s.static)
    (h : ∀ j ∈ s.static.outputs,
      ((s.static.conf j).otype = OutKind.command ∨ (s.static.conf j).otype = OutKind.wired ∨
       (s.static.conf j).otype = OutKind.wireless) → is_on s' j = is_on s j) :
    drawLoad s' = drawLoad s := by
  unfold drawLoad
  rw [hst]
  congr 1
  apply List.map_congr_left
  intro j hj
  by_cases hk : ((s.static.conf j).otype = OutKind.command ∨
      (s.static.conf j).otype = OutKind.wired ∨ (s.static.conf j).otype = OutKind.wireless)
  · rw [h j hj hk]
  · simp [hk]

theorem drawLoad_congr (s s' : Controller)
    (hst : s'.static = s.static) (hg : s'.rt.gpio = s.rt.gpio)
    (htt : s'.rt.time_turned_on = s.rt.time_turned_on) :
    drawLoad s' = drawLoad s := by
  apply drawLoad_eq_of_is_on_eq s s' hst
  intro j hj hk
  rcases hk with h | h | h
  · simp only [is_on, hst, htt, h]
  · exact is_on_wired_congr s s' j hst hg h
  · simp only [is_on, hst, htt, h]

theorem drawLoad_le_current (s : Controller)
    (hamps : ∀ a ∈ s.static.outputs, 0 ≤ (s.static.conf a).amps) :
    drawLoad s ≤ current_amp_load s := by
  unfold drawLoad current_amp_load
  apply List.sum_le_sum
  intro j hj
  by_cases hk : ((s.static.conf j).otype = OutKind.command ∨
      (s.static.conf j).otype = OutKind.wired ∨ (s.static.conf j).otype = OutKind.wireless)
  · by_cases h2 : is_on s j = true <;> simp [hk, h2]
  · by_cases h2 : is_on s j = true <;> simp [hk, h2]
    exact hamps j hj

theorem is_on_tto_update_ne (s : Controller) (id j : Nat) (t : Option ℚ) (hne : j ≠ id) :
    is_on { s with rt := { s.rt with
      time_turned_on := Function.update s.rt.time_turned_on id t } } j = is_on s j := by
  cases hjt : (s.static.conf j).otype
  · simp only [is_on, is_setup, hjt]
  · simp only [is_on, hjt, Function.update_noteq hne]
  · simp only [is_on, hjt, Function.update_noteq hne]
  · simp only [is_on, hjt]

theorem drawLoad_gpio_on_le (s : Controller) (id : Nat) (p : Int) (v : Bool)
    (hWF : WF s.static) (hmem : id ∈ s.static.outputs)
    (hw : (s.static.conf id).otype = OutKind.wired)
    (hp : (s.static.conf id).pin = some p) :
    drawLoad { s with rt := { s.rt with gpio := Function.update s.rt.gpio p v } } ≤
      drawLoad s + (s.static.conf id).amps := by
  obtain ⟨hnd, hinj, hamps⟩ := hWF
  have key : ∀ j ∈ s.static.outputs,
      (if (((s.static.conf j).otype = OutKind.command ∨
          (s.static.conf j).otype = OutKind.wired ∨
          (s.static.conf j).otype = OutKind.wireless) ∧
          is_on { s with rt := { s.rt with gpio := Function.update s.rt.gpio p v } } j = true)
        then (s.static.conf j).amps else 0) ≤
      (if (((s.static.conf j).otype = OutKind.command ∨
          (s.static.conf j).otype = OutKind.wired ∨
          (s.static.conf j).otype = OutKind.wireless) ∧ is_on s j = true)
        then (s.static.conf j).amps else 0) +
      (if j = id then (s.static.conf id).amps else 0) := by
    intro j hj
    by_cases hjid : j = id
    · have h0 : (0 : ℚ) ≤ (s.static.conf id).amps := hamps id hmem
      rw [if_pos hjid, hjid]
      split_ifs <;> linarith
    · have hiso : is_on { s with rt := { s.rt with
          gpio := Function.update s.rt.gpio p v } } j = is_on s j := by
        cases hjt : (s.static.conf j).otype
        · have hpin : (s.static.conf j).pin ≠ some p := by
            intro hpj
            exact hjid (hinj j hj id hmem hjt hw (hpj.trans hp.symm))
          simp only [is_on, is_setup, hjt]
          rcases hpj : (s.static.conf j).pin with _ | q
          · rfl
          · have hqp : q ≠ p := fun hqq => hpin (by rw [hpj, hqq])
            simp [hpj, Function.update_noteq hqp]
        · simp only [is_on, hjt]
        · simp only [is_on, hjt]
        · simp only [is_on, hjt]
      simp [hiso, hjid]
  calc drawLoad { s with rt := { s.rt with gpio := Function.update s.rt.gpio p v } }
      ≤ ((s.static.outputs).map (fun j =>
          (if (((s.static.conf j).otype = OutKind.command ∨
              (s.static.conf j).otype = OutKind.wired ∨
              (s.static.conf j).otype = OutKind.wireless) ∧ is_on s j = true)
            then (s.static.conf j).amps else 0) +
          (if j = id then (s.static.conf id).amps else 0))).sum :=
        List.sum_le_sum key
    _ = drawLoad s + (s.static.conf id).amps := by
        rw [List.sum_map_add, drawLoad, sum_map_ite_eq hnd hmem]

theorem drawLoad_gpio_off_le (s : Controller) (id : Nat) (p : Int)
    (hWF : WF s.static) (hmem : id ∈ s.static.outputs)
    (hw : (s.static.conf id).otype = OutKind.wired)
    (hp : (s.static.conf id).pin = some p) :
    drawLoad { s with rt := { s.rt with
        gpio := Function.update s.rt.gpio p (!(s.static.conf id).trigger) } } ≤
      drawLoad s := by
  obtain ⟨hnd, hinj, hamps⟩ := hWF
  unfold drawLoad
  apply List.sum_le_sum
  intro j hj
  by_cases hjid : j = id
  · have h0 : (0 : ℚ) ≤ (s.static.conf id).amps := hamps id hmem
    subst hjid
    have hoff : is_on { s with rt := { s.rt with
        gpio := Function.update s.rt.gpio p (!(s.static.conf j).trigger) } } j = false := by
      simp [is_on, is_setup, hw, hp, Function.update_same, pinTruthy]
    simp only [hoff]
    split_ifs <;> first
      | linarith
      | simp_all
  · have hiso : is_on { s with rt := { s.rt with
        gpio := Function.update s.rt.gpio p (!(s.static.conf id).trigger) } } j = is_on s j := by
      cases hjt : (s.static.conf j).otype
      · have hpin : (s.static.conf j).pin ≠ some p := by
          intro hpj
          exact hjid (hinj j hj id hmem hjt hw (hpj.trans hp.symm))
        simp only [is_on, is_setup, hjt]
        rcases hpj : (s.static.conf j).pin with _ | q
        · rfl
        · have hqp : q ≠ p := fun hqq => hpin (by rw [hpj, hqq])
          simp [hpj, Function.update_noteq hqp]
      · simp only [is_on, hjt]
      · simp only [is_on, hjt]
      · simp only [is_on, hjt]
    simp [hiso]

theorem drawLoad_tto_set_le (s : Controller) (id : Nat) (t : Option ℚ)
    (hnd : s.static.outputs.Nodup) (hmem : id ∈ s.static.outputs)
    (hamps : ∀ a ∈ s.static.outputs, 0 ≤ (s.static.conf a).amps) :
    drawLoad { s with rt := { s.rt with
        time_turned_on := Function.update s.rt.time_turned_on id t } } ≤
      drawLoad s + (s.static.conf id).amps := by
  have key : ∀ j ∈ s.static.outputs,
      (if (((s.static.conf j).otype = OutKind.command ∨
          (s.static.conf j).otype = OutKind.wired ∨
          (s.static.conf j).otype = OutKind.wireless) ∧
          is_on { s with rt := { s.rt with
            time_turned_on := Function.update s.rt.time_turned_on id t } } j = true)
        then (s.static.conf j).amps else 0) ≤
      (if (((s.static.conf j).otype = OutKind.command ∨
          (s.static.conf j).otype = OutKind.wired ∨
          (s.static.conf j).otype = OutKind.wireless) ∧ is_on s j = true)
        then (s.static.conf j).amps else 0) +
      (if j = id then (s.static.conf id).amps else 0) := by
    intro j hj
    by_cases hjid : j = id
    · have h0 : (0 : ℚ) ≤ (s.static.conf id).amps := hamps id hmem
      rw [if_pos hjid, hjid]
      split_ifs <;> linarith
    · rw [is_on_tto_update_ne s id j t hjid]
      simp [hjid]
  calc drawLoad { s with rt := { s.rt with
        time_turned_on := Function.update s.rt.time_turned_on id t } }
      ≤ ((s.static.outputs).map (fun j =>
          (if (((s.static.conf j).otype = OutKind.command ∨
              (s.static.conf j).otype = OutKind.wired ∨
              (s.static.conf j).otype = OutKind.wireless) ∧ is_on s j = true)
            then (s.static.conf j).amps else 0) +
          (if j = id then (s.static.conf id).amps else 0))).sum :=
        List.sum_le_sum key
    _ = drawLoad s + (s.static.conf id).amps := by
        rw [List.sum_map_add, drawLoad, sum_map_ite_eq hnd hmem]

theorem drawLoad_tto_set_eq_wired (s : Controller) (id : Nat) (t : Option ℚ)
    (hw : (s.static.conf id).otype = OutKind.wired) :
    drawLoad { s with rt := { s.rt with
        time_turned_on := Function.update s.rt.time_turned_on id t } } = drawLoad s := by
  apply drawLoad_eq_of_is_on_eq s
    { s with rt := { s.rt with
      time_turned_on := Function.update s.rt.time_turned_on id t } } rfl
  intro j hj hk
  by_cases hjid : j = id
  · subst hjid
    simp only [is_on, is_setup, hw]
  · exact is_on_tto_update_ne s id j t hjid

theorem drawLoad_tto_clear_le (s : Controller) (id : Nat)
    (hamps : ∀ a ∈ s.static.outputs, 0 ≤ (s.static.conf a).amps) :
    drawLoad { s with rt := { s.rt with
        time_turned_on := Function.update s.rt.time_turned_on id none } } ≤ drawLoad s := by
  unfold drawLoad
  apply List.sum_le_sum
  intro j hj
  by_cases hjid : j = id
  · subst hjid
    have h0 := hamps j hj
    cases hjt : (s.static.conf j).otype
    · have hiso : is_on { s with rt := { s.rt with
          time_turned_on := Function.update s.rt.time_turned_on j none } } j = is_on s j := by
        simp only [is_on, is_setup, hjt]
      simp only [hiso]
      split_ifs <;> first
        | linarith
        | simp_all
    · have hoff : is_on { s with rt := { s.rt with
          time_turned_on := Function.update s.rt.time_turned_on j none } } j = false := by
        simp [is_on, hjt, Function.update_same]
      simp only [hoff]
      split_ifs <;> first
        | linarith
        | simp_all
    · have hoff : is_on { s with rt := { s.rt with
          time_turned_on := Function.update s.rt.time_turned_on j none } } j = false := by
        simp [is_on, hjt, Function.update_same]
      simp only [hoff]
      split_ifs <;> first
        | linarith
        | simp_all
    · simp [hjt]
  · have hiso := is_on_tto_update_ne s id j none hjid
    simp only [hiso]
    split_ifs <;> first
      | linarith [hamps j hj]
      | simp_all

theorem output_switch_static (s : Controller) (id : Nat) (st : SwState) (dc : ℚ) :
    (output_switch s id st dc).1.static = s.static := by
  unfold output_switch
  rcases h : (s.static.conf id).otype <;> rcases st <;>
    simp only [h] <;>
    (try rcases hp : (s.static.conf id).pin <;> simp only [hp]) <;>
    (try rcases hl : (s.static.conf id).pwm_library <;> simp only [hl]) <;>
    (try split_ifs) <;> rfl

theorem output_switch_gpio_nonwired (s : Controller) (id : Nat) (st : SwState) (dc : ℚ)
    (h : (s.static.conf id).otype ≠ OutKind.wired) :
    (output_switch s id st dc).1.rt.gpio = s.rt.gpio := by
  unfold output_switch
  rcases hty : (s.static.conf id).otype <;> rcases st <;>
    simp only [hty] <;>
    first
    | (exact absurd hty h)
    | ((try rcases hp : (s.static.conf id).pin <;> simp only [hp]) <;>
       (try rcases hl : (s.static.conf id).pwm_library <;> simp only [hl]) <;>
       (try split_ifs) <;> rfl)

theorem output_switch_tto (s : Controller) (id : Nat) (st : SwState) (dc : ℚ) :
    (output_switch s id st dc).1.rt.time_turned_on = s.rt.time_turned_on := by
  unfold output_switch
  rcases h : (s.static.conf id).otype <;> rcases st <;>
    simp only [h] <;>
    (try rcases hp : (s.static.conf id).pin <;> simp only [hp]) <;>
    (try rcases hl : (s.static.conf id).pwm_library <;> simp only [hl]) <;>
    (try split_ifs) <;> rfl

theorem output_switch_state_cw (s : Controller) (id : Nat) (st : SwState) (dc : ℚ)
    (h : (s.static.conf id).otype = OutKind.command ∨
      (s.static.conf id).otype = OutKind.wireless) :
    (output_switch s id st dc).1 = s := by
  unfold output_switch
  rcases h with h | h <;> rcases st <;> simp only [h] <;>
    (try split_ifs) <;> rfl

theorem output_switch_drawLoad_on (s : Controller) (id : Nat) (dc : ℚ)
    (hWF : WF s.static) (hmem : id ∈ s.static.outputs) :
    drawLoad (output_switch s id .on dc).1 ≤ drawLoad s + (s.static.conf id).amps := by
  have h0 : (0 : ℚ) ≤ (s.static.conf id).amps := hWF.2.2 id hmem
  by_cases hw : (s.static.conf id).otype = OutKind.wired
  · rcases hp : (s.static.conf id).pin with _ | p
    · have heq : (output_switch s id .on dc).1 = s := by
        unfold output_switch
        simp [hw, hp]
      rw [heq]
      linarith
    · have heq : (output_switch s id .on dc).1 =
          { s with rt := { s.rt with
            gpio := Function.update s.rt.gpio p (s.static.conf id).trigger } } := by
        unfold output_switch
        simp [hw, hp]
      rw [heq]
      exact drawLoad_gpio_on_le s id p (s.static.conf id).trigger hWF hmem hw hp
  · have h1 := drawLoad_congr s (output_switch s id .on dc).1
      (output_switch_static s id .on dc) (output_switch_gpio_nonwired s id .on dc hw)
      (output_switch_tto s id .on dc)
    linarith

theorem output_switch_drawLoad_off (s : Controller) (id : Nat) (dc : ℚ)
    (hWF : WF s.static) (hmem : id ∈ s.static.outputs) :
    drawLoad (output_switch s id .off dc).1 ≤ drawLoad s := by
  by_cases hw : (s.static.conf id).otype = OutKind.wired
  · rcases hp : (s.static.conf id).pin with _ | p
    · have heq : (output_switch s id .off dc).1 = s := by
        unfold output_switch
        simp [hw, hp]
      rw [heq]
    · have heq : (output_switch s id .off dc).1 =
          { s with rt := { s.rt with
            gpio := Function.update s.rt.gpio p (!(s.static.conf id).trigger) } } := by
        unfold output_switch
        simp [hw, hp]
      rw [heq]
      exact drawLoad_gpio_off_le s id p hWF hmem hw hp
  · have h1 := drawLoad_congr s (output_switch s id .off dc).1
      (output_switch_static s id .off dc) (output_switch_gpio_nonwired s id .off dc hw)
      (output_switch_tto s id .off dc)
    linarith

theorem untimed_switch_drawLoad (s : Controller) (id : Nat) (now dc : ℚ)
    (hWF : WF s.static) (hmem : id ∈ s.static.outputs)
    (hk : (s.static.conf id).otype = OutKind.command ∨
      (s.static.conf id).otype = OutKind.wired ∨
      (s.static.conf id).otype = OutKind.wireless) :
    drawLoad (output_switch { s with rt := { s.rt with
        time_turned_on := Function.update s.rt.time_turned_on id (some now) } } id .on dc).1 ≤
      drawLoad s + (s.static.conf id).amps := by
  have hset := drawLoad_tto_set_le s id (some now) hWF.1 hmem hWF.2.2
  rcases hk with h | h | h
  · rw [output_switch_state_cw
      { s with rt := { s.rt with
        time_turned_on := Function.update s.rt.time_turned_on id (some now) } } id .on dc
      (Or.inl h)]
    exact hset
  · have hsw := output_switch_drawLoad_on
      { s with rt := { s.rt with
        time_turned_on := Function.update s.rt.time_turned_on id (some now) } } id dc hWF hmem
    have heq := drawLoad_tto_set_eq_wired s id (some now) h
    exact le_trans hsw (le_of_eq (by rw [heq]))
  · rw [output_switch_state_cw
      { s with rt := { s.rt with
        time_turned_on := Function.update s.rt.time_turned_on id (some now) } } id .on dc
      (Or.inr h)]
    exact hset
theorem on_dispatch_good (s : Controller) (id : Nat) (now d dc M : ℚ)
    (hWF : WF s.static) (hmem : id ∈ s.static.outputs)
    (hamp : ((s.static.conf id).otype = OutKind.command ∨
      (s.static.conf id).otype = OutKind.wired ∨
      (s.static.conf id).otype = OutKind.wireless) →
      current_amp_load s + (s.static.conf id).amps ≤ M)
    (hload : drawLoad s ≤ M) :
    (on_dispatch s id now d dc).st.static = s.static ∧
    drawLoad (on_dispatch s id now d dc).st ≤ M := by
  by_cases h1 : ((s.static.conf id).otype = OutKind.command ∨
      (s.static.conf id).otype = OutKind.wired ∨
      (s.static.conf id).otype = OutKind.wireless) ∧ d ≠ 0
  · by_cases h2 : (is_on s id = true ∧ s.rt.on_duration id = true)
    · simp only [on_dispatch]
      simp only [if_pos h1, if_pos h2, PreResult.st]
      exact ⟨trivial, le_of_eq_of_le (drawLoad_congr s _ rfl rfl rfl) hload⟩
    · by_cases h3 : (is_on s id = true ∧ s.static.outputs = [])
      · simp only [on_dispatch]
        simp only [if_pos h1, if_neg h2, if_pos h3, PreResult.st]
        exact ⟨trivial, le_of_eq_of_le (drawLoad_congr s _ rfl rfl rfl) hload⟩
      · simp only [on_dispatch]
        simp only [if_pos h1, if_neg h2, if_neg h3, PreResult.st]
        constructor
        · exact output_switch_static _ id .on dc
        · have hsw := output_switch_drawLoad_on
            { s with rt := { s.rt with
              on_until := Function.update s.rt.on_until id (now + d)
              on_duration := Function.update s.rt.on_duration id true
              last_duration := Function.update s.rt.last_duration id d } } id dc hWF hmem
          have hcg : drawLoad { s with rt := { s.rt with
              on_until := Function.update s.rt.on_until id (now + d)
              on_duration := Function.update s.rt.on_duration id true
              last_duration := Function.update s.rt.last_duration id d } } = drawLoad s :=
            drawLoad_congr s _ rfl rfl rfl
          have hc := hamp h1.1
          have hlc := drawLoad_le_current s hWF.2.2
          rw [hcg] at hsw
          calc drawLoad _ ≤ drawLoad s + (s.static.conf id).amps := hsw
            _ ≤ current_amp_load s + (s.static.conf id).amps := by linarith
            _ ≤ M := hc
  · by_cases h4 : ((s.static.conf id).otype = OutKind.command ∨
        (s.static.conf id).otype = OutKind.wired ∨
        (s.static.conf id).otype = OutKind.wireless)
    · by_cases h5 : is_on s id = true
      · simp only [on_dispatch]
        simp only [if_neg h1, if_pos h4, if_pos h5, PreResult.st]
        exact ⟨trivial, hload⟩
      · simp only [on_dispatch]
        simp only [if_neg h1, if_pos h4, if_neg h5, PreResult.st]
        constructor
        · exact output_switch_static _ id .on dc
        · have hsw := untimed_switch_drawLoad s id now dc hWF hmem h4
          have hc := hamp h4
          have hlc := drawLoad_le_current s hWF.2.2
          calc drawLoad _ ≤ drawLoad s + (s.static.conf id).amps := hsw
            _ ≤ current_amp_load s + (s.static.conf id).amps := by linarith
            _ ≤ M := hc
    · by_cases h6 : (s.static.conf id).otype = OutKind.pwm
      · by_cases h7 : (s.static.conf id).pwm_hertz ≤ 0
        · simp only [on_dispatch]
          simp only [if_neg h1, if_neg h4, if_pos h6, if_pos h7, PreResult.st]
          exact ⟨trivial, hload⟩
        · simp only [on_dispatch]
          simp only [if_neg h1, if_neg h4, if_pos h6, if_neg h7, PreResult.st]
          constructor
          · exact output_switch_static _ id .on dc
          · have hnw : (({ s with rt := { s.rt with
                pwm_time_turned_on := Function.update s.rt.pwm_time_turned_on id (some now) } } :
                Controller).static.conf id).otype ≠ OutKind.wired := by
              rw [h6]
              simp
            have hcg := drawLoad_congr s
              (output_switch { s with rt := { s.rt with
                pwm_time_turned_on := Function.update s.rt.pwm_time_turned_on id (some now) } }
                id .on dc).1
              (output_switch_static _ id .on dc)
              (output_switch_gpio_nonwired _ id .on dc hnw)
              (output_switch_tto _ id .on dc)
            rw [hcg]
            exact hload
      · simp only [on_dispatch]
        simp only [if_neg h1, if_neg h4, if_neg h6, PreResult.st]
        exact ⟨trivial, hload⟩

theorem off_path_good (s : Controller) (id : Nat) (now d dc M : ℚ)
    (hWF : WF s.static) (hmem : id ∈ s.static.outputs)
    (hload : drawLoad s ≤ M) :
    (off_path s id now d dc).st.static = s.static ∧
    drawLoad (off_path s id now d dc).st ≤ M := by
  have hsw_st := output_switch_static s id .off dc
  have hsw_ld := le_trans (output_switch_drawLoad_off s id dc hWF hmem) hload
  have hamps1 : ∀ a ∈ (output_switch s id SwState.off dc).1.static.outputs,
      0 ≤ ((output_switch s id SwState.off dc).1.static.conf a).amps := by
    rw [output_switch_static]
    exact hWF.2.2
  by_cases h1 : is_setup s id = true
  case neg =>
    simp [off_path, h1, PreResult.st]
    first
      | exact hload
      | exact ⟨trivial, hload⟩
  by_cases h2 : (((s.static.conf id).otype = OutKind.pwm ∨
      (s.static.conf id).otype = OutKind.wired ∨
      (s.static.conf id).otype = OutKind.wireless) ∧ (s.static.conf id).pin = none)
  case pos =>
    simp [off_path, h1, h2, PreResult.st]
    first
      | exact hload
      | exact ⟨trivial, hload⟩
  by_cases h3 : ((s.static.conf id).otype = OutKind.pwm ∧
      ((output_switch s id SwState.off dc).1.rt.pwm_time_turned_on id).isSome = true)
  case pos =>
    have hpin : ¬ (s.static.conf id).pin = none := fun hh => h2 ⟨Or.inl h3.1, hh⟩
    simp [off_path, h1, h2, h3, hpin, PreResult.st]
    constructor
    · exact hsw_st
    · exact le_of_eq_of_le
        (drawLoad_congr (output_switch s id SwState.off dc).1 _ rfl rfl rfl) hsw_ld
  by_cases h4 : (((output_switch s id SwState.off dc).1.rt.time_turned_on id).isSome = true ∨
      (output_switch s id SwState.off dc).1.rt.on_duration id = true)
  case pos =>
    by_cases hod : (output_switch s id SwState.off dc).1.rt.on_duration id = true
    · rcases htt : (output_switch s id SwState.off dc).1.rt.time_turned_on id with _ | t
      all_goals
        simp [off_path, h1, h2, h3, h4, hod, htt, PreResult.st]
        refine ⟨?_, ?_⟩
        · first
          | rfl
          | trivial
          | exact hsw_st
        · first
          | exact hload
          | exact hsw_ld
          | exact le_of_eq_of_le
              (drawLoad_congr (output_switch s id SwState.off dc).1 _ rfl rfl rfl) hsw_ld
          | exact le_trans
              (drawLoad_tto_clear_le
                { (output_switch s id SwState.off dc).1 with
                  rt := { (output_switch s id SwState.off dc).1.rt with
                    on_duration := Function.update
                      (output_switch s id SwState.off dc).1.rt.on_duration id false
                    on_until := Function.update
                      (output_switch s id SwState.off dc).1.rt.on_until id now } }
                id hamps1)
              (le_of_eq_of_le
                (drawLoad_congr (output_switch s id SwState.off dc).1 _ rfl rfl rfl) hsw_ld)
          | exact le_trans
              (drawLoad_tto_clear_le (output_switch s id SwState.off dc).1 id hamps1) hsw_ld
    · rcases htt : (output_switch s id SwState.off dc).1.rt.time_turned_on id with _ | t
      all_goals
        simp [off_path, h1, h2, h3, h4, hod, htt, PreResult.st]
        refine ⟨?_, ?_⟩
        · first
          | rfl
          | trivial
          | exact hsw_st
        · first
          | exact hload
          | exact hsw_ld
          | exact le_of_eq_of_le
              (drawLoad_congr (output_switch s id SwState.off dc).1 _ rfl rfl rfl) hsw_ld
          | exact le_trans
              (drawLoad_tto_clear_le
                { (output_switch s id SwState.off dc).1 with
                  rt := { (output_switch s id SwState.off dc).1.rt with
                    on_duration := Function.update
                      (output_switch s id SwState.off dc).1.rt.on_duration id false
                    on_until := Function.update
                      (output_switch s id SwState.off dc).1.rt.on_until id now } }
                id hamps1)
              (le_of_eq_of_le
                (drawLoad_congr (output_switch s id SwState.off dc).1 _ rfl rfl rfl) hsw_ld)
          | exact le_trans
              (drawLoad_tto_clear_le (output_switch s id SwState.off dc).1 id hamps1) hsw_ld
  case neg =>
    simp [off_path, h1, h2, h3, h4, PreResult.st]
    constructor
    · exact hsw_st
    · exact hsw_ld

theorem output_pre_good (cfg : Config) (now : ℚ) (s : Controller) (id : Nat)
    (st : SwState) (d mo dc : ℚ) (hWF : WF s.static)
    (hload : drawLoad s ≤ cfg.max_amps) :
    (output_pre cfg now s id st d mo dc).st.static = s.static ∧
    drawLoad (output_pre cfg now s id st d mo dc).st ≤ cfg.max_amps := by
  by_cases h0 : id ∈ s.static.outputs
  case neg =>
    simp [output_pre, h0, PreResult.st]
    first
      | exact hload
      | exact ⟨trivial, hload⟩
  cases st
  · by_cases h1 : (((s.static.conf id).otype = OutKind.pwm ∨
        (s.static.conf id).otype = OutKind.wired ∨
        (s.static.conf id).otype = OutKind.wireless) ∧ (s.static.conf id).pin = none)
    case pos =>
      simp [output_pre, h0, h1, PreResult.st]
      first
        | exact hload
        | exact ⟨trivial, hload⟩
    by_cases h2 : (((s.static.conf id).otype = OutKind.command ∨
        (s.static.conf id).otype = OutKind.wired ∨
        (s.static.conf id).otype = OutKind.wireless) ∧
        current_amp_load s + (s.static.conf id).amps > cfg.max_amps)
    case pos =>
      simp [output_pre, h0, h1, h2, PreResult.st]
      first
        | exact hload
        | exact ⟨trivial, hload⟩
    by_cases h3 : (((s.static.conf id).otype = OutKind.command ∨
        (s.static.conf id).otype = OutKind.wired ∨
        (s.static.conf id).otype = OutKind.wireless) ∧ mo ≠ 0 ∧ is_on s id = false ∧
        now > s.rt.on_until id ∧ now - s.rt.on_until id < mo)
    case pos =>
      simp [output_pre, h0, h1, h2, h3, PreResult.st]
      first
        | exact hload
        | exact ⟨trivial, hload⟩
    have hampf : ((s.static.conf id).otype = OutKind.command ∨
        (s.static.conf id).otype = OutKind.wired ∨
        (s.static.conf id).otype = OutKind.wireless) →
        current_amp_load s + (s.static.conf id).amps ≤ cfg.max_amps := by
      intro hcwl
      by_contra hlt
      exact h2 ⟨hcwl, lt_of_not_le hlt⟩
    have h := on_dispatch_good s id now d dc cfg.max_amps hWF h0 hampf hload
    simpa [output_pre, h0, h1, h2, h3] using h
  · have h := off_path_good s id now d dc cfg.max_amps hWF h0 hload
    simpa [output_pre, h0] using h

theorem run_action_good (cfg : Config) (recur : Recur) (now : ℚ) (outId : Nat)
    (st : SwState) (dur dc : ℚ) (M : ℚ) (base : Static)
    (hrec : ∀ s2 : Controller, s2.static = base → drawLoad s2 ≤ M →
      ∀ (rid : Nat) (rst : SwState) (rdur : ℚ),
        (recur s2 rid rst rdur).state.static = base ∧
        drawLoad (recur s2 rid rst rdur).state ≤ M)
    (a : CondAction) (s : Controller)
    (hs : s.static = base) (hload : drawLoad s ≤ M) :
    (run_action cfg recur now outId st dur dc a s).1.static = base ∧
    drawLoad (run_action cfg recur now outId st dur dc a s).1 ≤ M := by
  rcases ha : a.do_action
  case relay =>
    by_cases hm : a.do_relay_id ∈ s.static.outputs
    · by_cases hd : a.do_relay_duration = 0 <;>
        simp [run_action, ha, hm, hd] <;>
        exact hrec s hs hload _ _ _
    · simp [run_action, ha, hm]
      exact ⟨hs, hload⟩
  case command =>
    simp [run_action, ha]
    exact ⟨hs, hload⟩
  case email =>
    by_cases hall : (email_throttle cfg.smtp_max_count now s.rt.email_count
        s.rt.smtp_wait_time).1 = true <;>
      simp only [run_action, ha, hall, if_true, if_pos, if_neg, Bool.false_eq_true,
        not_false_eq_true] <;>
      exact ⟨hs, le_of_eq_of_le (drawLoad_congr s _ rfl rfl rfl) hload⟩
  case flash_lcd =>
    simp [run_action, ha]
    exact ⟨hs, hload⟩
  case photo =>
    simp [run_action, ha]
    exact ⟨hs, hload⟩
  case video =>
    simp [run_action, ha]
    exact ⟨hs, hload⟩

theorem run_actions_fold_good (cfg : Config) (recur : Recur) (now : ℚ) (outId : Nat)
    (st : SwState) (dur dc : ℚ) (M : ℚ) (base : Static) (cid : Nat)
    (hrec : ∀ s2 : Controller, s2.static = base → drawLoad s2 ≤ M →
      ∀ (rid : Nat) (rst : SwState) (rdur : ℚ),
        (recur s2 rid rst rdur).state.static = base ∧
        drawLoad (recur s2 rid rst rdur).state ≤ M) :
    ∀ (l : List CondAction) (s : Controller) (ev : List Event),
      s.static = base → drawLoad s ≤ M →
      ((l.foldl (fun acc a =>
          let r := run_action cfg recur now outId st dur dc a acc.1
          (r.1, acc.2 ++ Event.cond_fire cid a.aid :: r.2)) (s, ev)).1.static = base ∧
       drawLoad (l.foldl (fun acc a =>
          let r := run_action cfg recur now outId st dur dc a acc.1
          (r.1, acc.2 ++ Event.cond_fire cid a.aid :: r.2)) (s, ev)).1 ≤ M) := by
  intro l
  induction l with
  | nil =>
    intro s ev hs hload
    exact ⟨hs, hload⟩
  | cons a t ih =>
    intro s ev hs hload
    simp only [List.foldl_cons]
    have h := run_action_good cfg recur now outId st dur dc M base hrec a s hs hload
    exact ih _ _ h.1 h.2

theorem run_rule_good (cfg : Config) (recur : Recur) (now : ℚ) (outId : Nat)
    (st : SwState) (dur dc : ℚ) (M : ℚ) (base : Static) (c : Cond)
    (hrec : ∀ s2 : Controller, s2.static = base → drawLoad s2 ≤ M →
      ∀ (rid : Nat) (rst : SwState) (rdur : ℚ),
        (recur s2 rid rst rdur).state.static = base ∧
        drawLoad (recur s2 rid rst rdur).state ≤ M)
    (s : Controller) (hs : s.static = base) (hload : drawLoad s ≤ M) :
    (run_rule cfg recur now outId st dur dc c s).1.static = base ∧
    drawLoad (run_rule cfg recur now outId st dur dc c s).1 ≤ M := by
  unfold run_rule
  exact run_actions_fold_good cfg recur now outId st dur dc M base c.cid hrec _ s [] hs hload

theorem check_conditionals_good (cfg : Config) (recur : Recur) (now : ℚ)
    (outId : Nat) (st : SwState) (dur dc : ℚ) (M : ℚ) (base : Static)
    (hrec : ∀ s2 : Controller, s2.static = base → drawLoad s2 ≤ M →
      ∀ (rid : Nat) (rst : SwState) (rdur : ℚ),
        (recur s2 rid rst rdur).state.static = base ∧
        drawLoad (recur s2 rid rst rdur).state ≤ M)
    (s : Controller) (hs : s.static = base) (hload : drawLoad s ≤ M) :
    (check_conditionals cfg recur now s outId st dur dc).1.static = base ∧
    drawLoad (check_conditionals cfg recur now s outId st dur dc).1 ≤ M := by
  unfold check_conditionals
  generalize (matched_rules cfg s outId dur) = rules
  have aux : ∀ (l : List Cond) (s0 : Controller) (ev : List Event),
      s0.static = base → drawLoad s0 ≤ M →
      ((l.foldl (fun acc c =>
          let r := run_rule cfg recur now outId st dur dc c acc.1
          (r.1, acc.2 ++ r.2)) (s0, ev)).1.static = base ∧
       drawLoad (l.foldl (fun acc c =>
          let r := run_rule cfg recur now outId st dur dc c acc.1
          (r.1, acc.2 ++ r.2)) (s0, ev)).1 ≤ M) := by
    intro l
    induction l with
    | nil =>
      intro s0 ev hs0 hl0
      exact ⟨hs0, hl0⟩
    | cons c t ih =>
      intro s0 ev hs0 hl0
      simp only [List.foldl_cons]
      have h := run_rule_good cfg recur now outId st dur dc M base c hrec s0 hs0 hl0
      exact ih _ _ h.1 h.2
  exact aux rules s [] hs hload

theorem output_on_off_good (cfg : Config) (fuel : Nat) :
    ∀ (now : ℚ) (s : Controller) (id : Nat) (st : SwState) (d mo dc : ℚ) (trig : Bool),
      WF s.static → drawLoad s ≤ cfg.max_amps →
      ((output_on_off cfg fuel now s id st d mo dc trig).state.static = s.static ∧
       drawLoad (output_on_off cfg fuel now s id st d mo dc trig).state ≤ cfg.max_amps) := by
  induction fuel with
  | zero =>
    intro now s id st d mo dc trig hWF hload
    exact ⟨rfl, hload⟩
  | succ fuel ih =>
    intro now s id st d mo dc trig hWF hload
    have h := output_pre_good cfg now s id st d mo dc hWF hload
    simp only [output_on_off]
    rcases hpre : output_pre cfg now s id st d mo dc with ⟨r, s2, ev⟩ | ⟨s2, ev, dur⟩
    · rw [hpre] at h
      simp only [hpre]
      simpa [PreResult.st] using h
    · rw [hpre] at h
      simp only [hpre, PreResult.st] at h ⊢
      split
      · have hrec : ∀ s3 : Controller, s3.static = s.static →
            drawLoad s3 ≤ cfg.max_amps →
            ∀ (rid : Nat) (rst : SwState) (rdur : ℚ),
              (output_on_off cfg fuel now s3 rid rst rdur 0 0 true).state.static = s.static ∧
              drawLoad (output_on_off cfg fuel now s3 rid rst rdur 0 0 true).state ≤
                cfg.max_amps := by
          intro s3 hs3 hl3 rid rst rdur
          have hWF3 : WF s3.static := by rw [hs3]; exact hWF
          have h3 := ih now s3 rid rst rdur 0 0 true hWF3 hl3
          exact ⟨h3.1.trans hs3, h3.2⟩
        exact check_conditionals_good cfg _ now id st dur dc cfg.max_amps s.static
          hrec s2 h.1 h.2
      · exact h

theorem tick_step_good (cfg : Config) (fuel : Nat) (now : ℚ) (s : Controller) (id : Nat)
    (hWF : WF s.static) (hload : drawLoad s ≤ cfg.max_amps) :
    (tick_step cfg fuel now s id).1.static = s.static ∧
    drawLoad (tick_step cfg fuel now s id).1 ≤ cfg.max_amps := by
  unfold tick_step
  split
  · exact output_on_off_good cfg fuel now s id .off 0 0 0 true hWF hload
  · exact ⟨rfl, hload⟩

theorem tick_good (cfg : Config) (fuel : Nat) (now : ℚ) (s : Controller)
    (hWF : WF s.static) (hload : drawLoad s ≤ cfg.max_amps) :
    (tick cfg fuel now s).1.static = s.static ∧
    drawLoad (tick cfg fuel now s).1 ≤ cfg.max_amps := by
  unfold tick
  generalize s.static.outputs = l
  have aux : ∀ (l2 : List Nat) (s0 : Controller) (ev : List Event),
      s0.static = s.static → drawLoad s0 ≤ cfg.max_amps →
      ((l2.foldl (fun acc id =>
          let r := tick_step cfg fuel now acc.1 id
          (r.1, acc.2 ++ r.2)) (s0, ev)).1.static = s.static ∧
       drawLoad (l2.foldl (fun acc id =>
          let r := tick_step cfg fuel now acc.1 id
          (r.1, acc.2 ++ r.2)) (s0, ev)).1 ≤ cfg.max_amps) := by
    intro l2
    induction l2 with
    | nil =>
      intro s0 ev hs0 hl0
      exact ⟨hs0, hl0⟩
    | cons a t ih =>
      intro s0 ev hs0 hl0
      simp only [List.foldl_cons]
      have hWF0 : WF s0.static := by rw [hs0]; exact hWF
      have h := tick_step_good cfg fuel now s0 a hWF0 hl0
      exact ih _ _ (h.1.trans hs0) h.2
  exact aux l s [] rfl hload

theorem reachable_good (cfg : Config) (s0 s : Controller)
    (hWF : WF s0.static) (h0 : drawLoad s0 ≤ cfg.max_amps)
    (hr : Reachable cfg s0 s) :
    drawLoad s ≤ cfg.max_amps ∧ s.static = s0.static := by
  induction hr with
  | refl => exact ⟨h0, rfl⟩
  | @tail sMid sNext hprev hstep ih =>
    obtain ⟨hl, hst⟩ := ih
    cases hstep
    case switch =>
      rename_i fuel now id2 st2 d mo dc tg
      have hWF1 : WF sMid.static := by rw [hst]; exact hWF
      have hg := output_on_off_good cfg fuel now sMid id2 st2 d mo dc tg hWF1 hl
      exact ⟨hg.2, hg.1.trans hst⟩
    case sched =>
      rename_i fuel now
      have hWF1 : WF sMid.static := by rw [hst]; exact hWF
      have hg := tick_good cfg fuel now sMid hWF1 hl
      exact ⟨hg.2, hg.1.trans hst⟩

theorem drawLoad_of_all_off (s : Controller) (h : all_off s) : drawLoad s = 0 := by
  unfold drawLoad
  rw [List.sum_eq_zero]
  intro x hx
  rcases List.mem_map.mp hx with ⟨j, hj, rfl⟩
  simp [h j hj]

/-- C2: amended — restricted to the current-drawing kinds (command, wired,
wireless: exactly the kinds the amp budget check guards) the budget
invariant holds: from a well-formed registry (distinct ids, pairwise
distinct wired pins, nonnegative rated draws) with all outputs off and a
nonnegative budget, every state reachable by on/off/duty requests and
scheduler passes keeps the sum of rated draws of the currently-on
current-drawing outputs at or below the configured maximum.  The
unrestricted claim is false: PWM outputs are never budget-checked (see the
counterexample). -/
theorem draw_amp_invariant (cfg : Config) (s0 s : Controller)
    (hWF : WF s0.static) (hall : all_off s0) (hM : 0 ≤ cfg.max_amps)
    (hr : Reachable cfg s0 s) :
    drawLoad s ≤ cfg.max_amps := by
  have h0 : drawLoad s0 ≤ cfg.max_amps := by
    rw [drawLoad_of_all_off s0 hall]
    exact hM
  exact (reachable_good cfg s0 s hWF h0 hr).1

/-- Witness for `draw_amp_invariant` at the two-relay scenario state. -/
theorem draw_amp_invariant_witness :
    drawLoad wiredState ≤ ampCfg.max_amps :=
  draw_amp_invariant ampCfg wiredState wiredState
    (by unfold WF; with_unfolding_all decide)
    (by unfold all_off; with_unfolding_all decide)
    (by norm_num [ampCfg])
    Reachable.refl

/-- C2 counterexample: from an all-off, well-formed state with one PWM
output rated at 20 A under a 10 A budget, a single reachable on-request
leaves the observed-on amp sum at 20 A, exceeding the configured maximum —
the unrestricted invariant is false. -/
theorem amp_invariant_counterexample :
    all_off (pwmState .pigpio_any) ∧
    WF (pwmState .pigpio_any).static ∧
    Reachable ampCfg (pwmState .pigpio_any) (pwmOn .pigpio_any 50).state ∧
    current_amp_load (pwmOn .pigpio_any 50).state = 20 ∧
    ampCfg.max_amps = 10 ∧
    ¬ (current_amp_load (pwmOn .pigpio_any 50).state ≤ ampCfg.max_amps) := by
  refine ⟨?_, ?_, ?_, ?_, ?_, ?_⟩
  · unfold all_off
    with_unfolding_all decide
  · unfold WF
    with_unfolding_all decide
  · exact Reachable.tail Reachable.refl (Step.switch 1 0 (pwmState .pigpio_any) 1 .on 0 0 50 true)
  · with_unfolding_all decide
  · with_unfolding_all decide
  · with_unfolding_all decide
end Mycodo
